import Mathlib

set_option maxRecDepth 1000000
set_option maxHeartbeats 4000000

/-!
Verification development for the Humaein eClaim simulator (exact-match mode),
a shallow embedding of `humaein_sim.py`.

Documents (Python nested dict/list/scalar payloads) are modelled by the
tagged union `JVal`. Python dicts are insertion-ordered, so they are
modelled as association lists in insertion order; numbers are modelled by
their Python `repr` string (no arithmetic is performed on them anywhere in
the embedded code paths). Python `None` is `JVal.null`; functions that
return "value or None" return a `JVal`, with `JVal.null` playing the role
of `None`, exactly as in the source (which cannot distinguish a stored
`None` from an absent key in those helpers).
-/

/-- A Python/JSON-like value. `num` carries the Python `repr` string of the
number (e.g. `100.00` in source text is the float whose repr is `"100.0"`). -/
inductive JVal where
  | null : JVal
  | bool (b : Bool) : JVal
  | num (r : String) : JVal
  | str (s : String) : JVal
  | arr (elems : List JVal) : JVal
  | obj (entries : List (String × JVal)) : JVal

mutual
def decEqJVal : (a b : JVal) → Decidable (a = b)
  | .null, .null => .isTrue rfl
  | .null, .bool _ => .isFalse (fun h => nomatch h)
  | .null, .num _ => .isFalse (fun h => nomatch h)
  | .null, .str _ => .isFalse (fun h => nomatch h)
  | .null, .arr _ => .isFalse (fun h => nomatch h)
  | .null, .obj _ => .isFalse (fun h => nomatch h)
  | .bool _, .null => .isFalse (fun h => nomatch h)
  | .bool x, .bool y =>
    if h : x = y then .isTrue (by rw [h]) else .isFalse (fun hh => by cases hh; exact h rfl)
  | .bool _, .num _ => .isFalse (fun h => nomatch h)
  | .bool _, .str _ => .isFalse (fun h => nomatch h)
  | .bool _, .arr _ => .isFalse (fun h => nomatch h)
  | .bool _, .obj _ => .isFalse (fun h => nomatch h)
  | .num _, .null => .isFalse (fun h => nomatch h)
  | .num _, .bool _ => .isFalse (fun h => nomatch h)
  | .num x, .num y =>
    if h : x = y then .isTrue (by rw [h]) else .isFalse (fun hh => by cases hh; exact h rfl)
  | .num _, .str _ => .isFalse (fun h => nomatch h)
  | .num _, .arr _ => .isFalse (fun h => nomatch h)
  | .num _, .obj _ => .isFalse (fun h => nomatch h)
  | .str _, .null => .isFalse (fun h => nomatch h)
  | .str _, .bool _ => .isFalse (fun h => nomatch h)
  | .str _, .num _ => .isFalse (fun h => nomatch h)
  | .str x, .str y =>
    if h : x = y then .isTrue (by rw [h]) else .isFalse (fun hh => by cases hh; exact h rfl)
  | .str _, .arr _ => .isFalse (fun h => nomatch h)
  | .str _, .obj _ => .isFalse (fun h => nomatch h)
  | .arr _, .null => .isFalse (fun h => nomatch h)
  | .arr _, .bool _ => .isFalse (fun h => nomatch h)
  | .arr _, .num _ => .isFalse (fun h => nomatch h)
  | .arr _, .str _ => .isFalse (fun h => nomatch h)
  | .arr xs, .arr ys =>
    match decEqJList xs ys with
    | .isTrue h => .isTrue (by rw [h])
    | .isFalse h => .isFalse (fun hh => by cases hh; exact h rfl)
  | .arr _, .obj _ => .isFalse (fun h => nomatch h)
  | .obj _, .null => .isFalse (fun h => nomatch h)
  | .obj _, .bool _ => .isFalse (fun h => nomatch h)
  | .obj _, .num _ => .isFalse (fun h => nomatch h)
  | .obj _, .str _ => .isFalse (fun h => nomatch h)
  | .obj _, .arr _ => .isFalse (fun h => nomatch h)
  | .obj xs, .obj ys =>
    match decEqJEntries xs ys with
    | .isTrue h => .isTrue (by rw [h])
    | .isFalse h => .isFalse (fun hh => by cases hh; exact h rfl)

def decEqJList : (a b : List JVal) → Decidable (a = b)
  | [], [] => .isTrue rfl
  | [], _ :: _ => .isFalse (fun h => nomatch h)
  | _ :: _, [] => .isFalse (fun h => nomatch h)
  | x :: xs, y :: ys =>
    match decEqJVal x y with
    | .isFalse h => .isFalse (fun hh => by cases hh; exact h rfl)
    | .isTrue h1 =>
      match decEqJList xs ys with
      | .isTrue h2 => .isTrue (by rw [h1, h2])
      | .isFalse h2 => .isFalse (fun hh => by cases hh; exact h2 rfl)

def decEqJEntries : (a b : List (String × JVal)) → Decidable (a = b)
  | [], [] => .isTrue rfl
  | [], _ :: _ => .isFalse (fun h => nomatch h)
  | _ :: _, [] => .isFalse (fun h => nomatch h)
  | (k1, v1) :: xs, (k2, v2) :: ys =>
    if hk : k1 = k2 then
      match decEqJVal v1 v2 with
      | .isFalse h => .isFalse (fun hh => by cases hh; exact h rfl)
      | .isTrue h1 =>
        match decEqJEntries xs ys with
        | .isTrue h2 => .isTrue (by rw [hk, h1, h2])
        | .isFalse h2 => .isFalse (fun hh => by cases hh; exact h2 rfl)
    else .isFalse (fun hh => by cases hh; exact hk rfl)
end

instance : DecidableEq JVal := decEqJVal

/-- Insertion-ordered string-keyed dictionary, the model of a Python `dict`. -/
abbrev Dict (α : Type) := List (String × α)

/-- `d.get(k)`: first binding of `k` (Python dicts have unique keys; the
model takes the first). -/
def dget {α : Type} (d : Dict α) (k : String) : Option α :=
  (d.find? (fun e => e.1 = k)).map (fun e => e.2)

/-- `k in d` membership test on dict keys. -/
def dmem {α : Type} (d : Dict α) (k : String) : Bool :=
  d.any (fun e => e.1 = k)

/-- `d[k] = v`: overwrite in place if the key exists (keeping its position,
as Python dicts do), else append. -/
def dset {α : Type} (d : Dict α) (k : String) (v : α) : Dict α :=
  if dmem d k then d.map (fun e => if e.1 = k then (k, v) else e)
  else d ++ [(k, v)]

/-- `del d[k]`: remove the binding, keeping the order of the others. -/
def ddel {α : Type} (d : Dict α) (k : String) : Dict α :=
  d.filter (fun e => e.1 ≠ k)

/-- Python truthiness of a value (`if x:`). A number is falsy iff it equals
zero; with the repr-string model this is a check against the repr forms of
zero actually producible (`0`, `0.0`, `-0`, `-0.0`). -/
def pyTruthy : JVal → Bool
  | .null => false
  | .bool b => b
  | .num r => !(r = "0" || r = "0.0" || r = "-0" || r = "-0.0")
  | .str s => s ≠ ""
  | .arr xs => !xs.isEmpty
  | .obj es => !es.isEmpty

/-- Python `a or b` on values. -/
def pyOr (a b : JVal) : JVal := if pyTruthy a then a else b

/-- Python whitespace as stripped by `str.strip()` (ASCII subset; the
further Unicode whitespace Python strips never occurs in the data). -/
def pyWhitespace (c : Char) : Bool :=
  c = ' ' || c = '\t' || c = '\n' || c = '\r' || c.toNat = 11 || c.toNat = 12

/-- `s.strip()`. -/
def pyStrip (s : String) : String :=
  String.mk (((s.data.dropWhile pyWhitespace).reverse.dropWhile pyWhitespace).reverse)

/-- `s.lower()` (ASCII lowering; all keys in the data are ASCII). -/
def lowerStr (s : String) : String :=
  String.mk (s.data.map Char.toLower)

/-- `c in s` for a single character. -/
def containsChar (s : String) (c : Char) : Bool :=
  s.data.contains c

/-- Split a string on a single-character separator, Python `s.split(sep)`
semantics: `"".split` gives `[""]`, adjacent separators give empty parts. -/
def splitOnCharAux (c : Char) : List Char → List Char → List String
  | [], acc => [String.mk acc.reverse]
  | x :: xs, acc =>
    if x = c then String.mk acc.reverse :: splitOnCharAux c xs []
    else splitOnCharAux c xs (x :: acc)

/-- `s.split(c)` for a one-character separator. -/
def splitOnChar (c : Char) (s : String) : List String :=
  splitOnCharAux c s.data []

/-- Digits-only string to `Nat` (`int(p)` on a `\d+` segment). -/
def digitsToNat (s : String) : Nat :=
  s.data.foldl (fun n c => n * 10 + (c.toNat - 48)) 0

/-- `sep.join(xs)`. -/
def joinWith (sep : String) : List String → String
  | [] => ""
  | [x] => x
  | x :: xs => x ++ sep ++ joinWith sep xs

/-- Hex digit for code-point escapes (only ever called on values below 16). -/
def hexDigit (n : Nat) : Char :=
  "0123456789abcdef".data.getD n 'f'

/-- `\uXXXX` escape of a code point (below 0x10000; the seeds and all
claim-relevant inputs are ASCII). -/
def uEscape (n : Nat) : String :=
  let h := fun k => hexDigit ((n / k) % 16)
  String.mk ['\\', 'u', h 4096, h 256, h 16, h 1]

/-- One step of JSON string escaping, as `json.dumps` performs it with the
default `ensure_ascii=True` (quote, backslash, control characters,
non-ASCII). -/
def jsonEscapeChar (acc : String) (c : Char) : String :=
  if c = '"' then acc ++ "\\\""
  else if c = '\\' then acc ++ "\\\\"
  else if c = '\n' then acc ++ "\\n"
  else if c = '\r' then acc ++ "\\r"
  else if c = '\t' then acc ++ "\\t"
  else if c.toNat = 8 then acc ++ "\\b"
  else if c.toNat = 12 then acc ++ "\\f"
  else if c.toNat < 32 || c.toNat > 126 then acc ++ uEscape c.toNat
  else acc.push c

/-- JSON string escaping (`json.dumps` with `ensure_ascii=True`). -/
def jsonEscape (s : String) : String :=
  s.data.foldl jsonEscapeChar ""

/-- Insertion into a key-sorted rendered-entry list (for `sort_keys=True`). -/
def insertByKey (e : String × String) : List (String × String) → List (String × String)
  | [] => [e]
  | x :: xs => if e.1 ≤ x.1 then e :: x :: xs else x :: insertByKey e xs

/-- Key-sort of rendered dict entries, as `json.dumps(..., sort_keys=True)`
does. (The source sorts keys and then renders values; here each value is
rendered first and the `(key, rendered)` pairs are sorted, which yields the
same string since rendering a value does not depend on its position.) -/
def sortRenderedByKey (es : List (String × String)) : List (String × String) :=
  es.foldr insertByKey []

/-- Join rendered JSON array elements with `,`. -/
def joinComma (xs : List String) : String := joinWith "," xs

/-- Render sorted `(key, rendered)` pairs as JSON object members. -/
def joinObjEntries (es : List (String × String)) : String :=
  joinComma (es.map (fun e => "\"" ++ jsonEscape e.1 ++ "\":" ++ e.2))

mutual
/-- `json.dumps(v, sort_keys=True, separators=(",", ":"))`. -/
def jsonDumpsSorted : JVal → String
  | .null => "null"
  | .bool true => "true"
  | .bool false => "false"
  | .num r => r
  | .str s => "\"" ++ jsonEscape s ++ "\""
  | .arr xs => "[" ++ joinComma (jsonRenderList xs) ++ "]"
  | .obj es => "\x7b" ++ joinObjEntries (sortRenderedByKey (jsonRenderEntries es)) ++ "\x7d"

def jsonRenderList : List JVal → List String
  | [] => []
  | x :: xs => jsonDumpsSorted x :: jsonRenderList xs

def jsonRenderEntries : List (String × JVal) → List (String × String)
  | [] => []
  | (k, v) :: es => (k, jsonDumpsSorted v) :: jsonRenderEntries es
end

/-- Join Python container reprs with `, `. -/
def joinCommaSpace (xs : List String) : String := joinWith ", " xs

mutual
/-- Python `str(v)` for the values this embedding can hold. For containers
this is Python's `repr`-style rendering; the container branches are
unreachable on every claim-relevant path (the source only calls `str` on
scalars there), and quote-escaping inside reprs is not modelled. -/
def pyStr : JVal → String
  | .null => "None"
  | .bool true => "True"
  | .bool false => "False"
  | .num r => r
  | .str s => s
  | .arr xs => "[" ++ joinCommaSpace (pyReprList xs) ++ "]"
  | .obj es => "\x7b" ++ joinCommaSpace (pyReprEntries es) ++ "\x7d"

/-- Python `repr(v)` (approximate: string quoting without escape handling). -/
def pyRepr : JVal → String
  | .null => "None"
  | .bool true => "True"
  | .bool false => "False"
  | .num r => r
  | .str s => "'" ++ s ++ "'"
  | .arr xs => "[" ++ joinCommaSpace (pyReprList xs) ++ "]"
  | .obj es => "\x7b" ++ joinCommaSpace (pyReprEntries es) ++ "\x7d"

def pyReprList : List JVal → List String
  | [] => []
  | x :: xs => pyRepr x :: pyReprList xs

def pyReprEntries : List (String × JVal) → List String
  | [] => []
  | (k, v) :: es => ("'" ++ k ++ "': " ++ pyRepr v) :: pyReprEntries es
end

/-- `re.fullmatch(r"\d+", p)`: a nonempty all-digit segment. -/
def isDigits (p : String) : Bool :=
  p ≠ "" && p.data.all Char.isDigit

/-- One step of `_get_path_value`'s loop body, iterated over the split path.
Numeric segments index sequences only; key segments use exact dict lookup
first, then the first case-insensitively equal key; anything else is `None`. -/
def get_path_value_go : JVal → List String → JVal
  | cur, [] => cur
  | cur, p :: rest =>
    if isDigits p then
      match cur with
      | .arr elems =>
        match elems[digitsToNat p]? with
        | some c => get_path_value_go c rest
        | none => .null
      | _ => .null
    else
      match cur with
      | .obj entries =>
        match dget entries p with
        | some v => get_path_value_go v rest
        | none =>
          match entries.find? (fun e => lowerStr e.1 = lowerStr p) with
          | some e => get_path_value_go e.2 rest
          | none => .null
      | _ => .null

/-- `_get_path_value(obj, path)`: safe dotted-path extractor. -/
def get_path_value (obj : JVal) (path : String) : JVal :=
  match obj with
  | .null => .null
  | _ => get_path_value_go obj (splitOnChar '.' path)

mutual
/-- `_find_first_key_occurrence(obj, key)`: at a mapping, an exact key at
this level is returned first (even when its value is `None`), else the
first case-insensitively equal key at this level, else the values are
searched recursively in declared order; at a sequence, elements in order.
A recursive result of `None` is skipped (`if found is not None`). -/
def find_first_key_occurrence : JVal → String → JVal
  | .obj entries, key =>
    (match dget entries key with
     | some v => v
     | none =>
       match entries.find? (fun e => lowerStr e.1 = lowerStr key) with
       | some e => e.2
       | none => ffko_entries entries key)
  | .arr elems, key => ffko_list elems key
  | _, _ => .null

/-- The recursion over a mapping's values in declared order: first
non-`None` recursive result. -/
def ffko_entries : List (String × JVal) → String → JVal
  | [], _ => .null
  | (_, v) :: es, key =>
    match find_first_key_occurrence v key with
    | .null => ffko_entries es key
    | w => w

/-- The recursion over sequence elements in order: first non-`None`
recursive result. -/
def ffko_list : List JVal → String → JVal
  | [], _ => .null
  | x :: xs, key =>
    match find_first_key_occurrence x key with
    | .null => ffko_list xs key
    | v => v
end

/-- `_normalize_value_exact(v)`: `None` for null; canonical JSON dump for
containers; trimmed string form for scalars, with empty-after-trim
counting as `None`. -/
def normalize_value_exact (v : JVal) : Option String :=
  match v with
  | .null => none
  | .obj _ => some (jsonDumpsSorted v)
  | .arr _ => some (jsonDumpsSorted v)
  | _ =>
    let s := pyStrip (pyStr v)
    if s = "" then none else some s

/-- The final segment of a dotted field path (`fn.split(".")[-1]`). -/
def shortNameOf (fn : String) : String :=
  (splitOnChar '.' fn).getLastD fn

/-- `_extract_values_by_fieldnames(obj, fieldnames)`: dotted path first,
then first-occurrence fallback by short name. -/
def extract_values_by_fieldnames (obj : JVal) (fieldnames : List String) : Dict JVal :=
  fieldnames.foldl (fun found fn =>
    let short := shortNameOf fn
    if containsChar fn '.' then
      match get_path_value obj fn with
      | .null =>
        match find_first_key_occurrence obj short with
        | .null => found
        | v2 => dset found short v2
      | v => dset found short v
    else
      match find_first_key_occurrence obj fn with
      | .null => found
      | v => dset found fn v) []

/-- The value resolved for one unique field inside
`_build_unique_composite_exact`: dotted path (with first-occurrence
fallback by short name) when the path is dotted, else first occurrence of
the bare name. -/
def resolveUniqueField (obj : JVal) (fn : String) : JVal :=
  if containsChar fn '.' then
    match get_path_value obj fn with
    | .null => find_first_key_occurrence obj (shortNameOf fn)
    | v => v
  else find_first_key_occurrence obj fn

/-- The `ShortName=NormalizedValue` part contributed by one field, when its
value is present. -/
def compositePart (obj : JVal) (fn : String) : Option String :=
  (normalize_value_exact (resolveUniqueField obj fn)).map
    (fun n => shortNameOf fn ++ "=" ++ n)

/-- The list of per-field parts of `_build_unique_composite_exact`, `None`
(incomplete) as soon as any field's normalized value is missing. -/
def compositeParts (obj : JVal) (fieldnames : List String) : Option (List String) :=
  fieldnames.mapM (compositePart obj)

/-- `_build_unique_composite_exact(obj, fieldnames)`: the per-field parts
joined with the fixed two-character separator `||`. -/
def build_unique_composite_exact (obj : JVal) (fieldnames : List String) : Option String :=
  (compositeParts obj fieldnames).map (fun parts => joinWith "||" parts)

/-- `UNIQUE_FIELDS_PER_STAGE`, in source order. -/
def UNIQUE_FIELDS_PER_STAGE : Dict (List String) :=
  [("eligibility", ["Claim.ID", "Claim.MemberID"]),
   ("prior_authorization", ["PriorAuthorizationRequest.RequestID"]),
   ("remittance_tracking", ["Remittance.RemitID", "Remittance.ClaimRefID"]),
   ("claims_submission", ["ClaimSubmission.ClaimID", "ClaimSubmission.ExternalID"]),
   ("claims_scrubbing", ["Claim.ExternalID"]),
   ("claims_resubmission", ["Resubmission.OriginalClaimRefID"]),
   ("remittance_post_resubmission", ["RemittancePost.NewClaimRefID"]),
   ("denial_management", ["Denial.ClaimRefID"]),
   ("reconciliation", ["Reconciliation.ReconID"]),
   ("medical_coding", ["Claim.ID"]),
   ("clinical_documentation", ["ClinicalDocument.ProcedureCode", "ClinicalDocument.ClinicianID"])]

/-- `STAGES_WITH_PATIENT_INFO` (a set in the source; membership is all that
is ever used). -/
def STAGES_WITH_PATIENT_INFO : List String :=
  ["eligibility", "prior_authorization", "claims_submission", "claims_scrubbing",
   "claims_resubmission", "medical_coding", "clinical_documentation"]

example : build_unique_composite_exact
    (.obj [("Claim", .obj [("ID", .str "CLM-ELG-0001"), ("MemberID", .str "784-1987-1234567-1")])])
    ["Claim.ID", "Claim.MemberID"]
    = some "ID=CLM-ELG-0001||MemberID=784-1987-1234567-1" := by decide

example : build_unique_composite_exact
    (.obj [("Claim", .obj [("ID", .str "CLM-ELG-0001")])])
    ["Claim.ID", "Claim.MemberID"] = none := by decide

example : find_first_key_occurrence
    (.obj [("a", .obj [("x", .num "1")]), ("x", .num "2")]) "x" = .num "2" := by decide

/- ===== Patient-info extraction and the summarizer ===== -/

/-- `_extract_patient_info(obj)`: look for an explicit `Patient`/`PatientInfo`
node, with `MemberID`/name/DOB first-occurrence fallbacks, then drop the
entries whose value is `None`. -/
def extract_patient_info (obj : JVal) : Dict JVal :=
  let patient : Dict JVal := []
  let pnode := pyOr (find_first_key_occurrence obj "Patient") (find_first_key_occurrence obj "PatientInfo")
  let patient :=
    match pnode with
    | .obj pn =>
      let pg := fun k => (dget pn k).getD JVal.null
      let patient := dset patient "patient_id"
        (pyOr (pg "PatientID") (pyOr (pg "PatientId") (pyOr (pg "MemberID") (pyOr (pg "MemberId") (pg "ID")))))
      let patient := dset patient "name"
        (pyOr (pg "Name") (pyOr (pg "FullName") (pyOr (pg "GivenName") (pg "FirstName"))))
      dset patient "dob" (pyOr (pg "DOB") (pyOr (pg "DateOfBirth") (pg "BirthDate")))
    | _ => patient
  let patient :=
    if pyTruthy ((dget patient "patient_id").getD JVal.null) then patient
    else
      let mid := pyOr (find_first_key_occurrence obj "MemberID") (find_first_key_occurrence obj "MemberId")
      if pyTruthy mid then dset (dset patient "patient_id" mid) "member_id" mid else patient
  let patient :=
    if pyTruthy ((dget patient "name").getD JVal.null) then patient
    else
      let nv := pyOr (find_first_key_occurrence obj "Name")
        (pyOr (find_first_key_occurrence obj "PatientName") (find_first_key_occurrence obj "FullName"))
      if pyTruthy nv then dset patient "name" nv else patient
  let patient :=
    if pyTruthy ((dget patient "dob").getD JVal.null) then patient
    else
      let dv := pyOr (find_first_key_occurrence obj "DOB")
        (pyOr (find_first_key_occurrence obj "DateOfBirth") (find_first_key_occurrence obj "BirthDate"))
      if pyTruthy dv then dset patient "dob" dv else patient
  patient.filter (fun e => e.2 ≠ JVal.null)

/-- Whether a number repr is a Python `float` repr (as opposed to `int`). -/
def isFloatRepr (r : String) : Bool :=
  containsChar r '.' || containsChar r 'e' || containsChar r 'n'

/-- Two-digit rendering of a number below 100. -/
def twoDigitStr (m : Nat) : String :=
  if m < 10 then "0" ++ toString m else toString m

/-- `f"{amount:.2f}"` on a plain decimal float repr. Rounding of a third
decimal digit is half-up here, where Python rounds the underlying binary
float; every value that reaches this in the program has at most two decimal
digits, so the two agree on all reachable inputs. -/
def formatFloat2 (r : String) : String :=
  let neg := r.data.head? = some '-'
  let body := String.mk (if neg then r.data.tail else r.data)
  match splitOnChar '.' body with
  | [ip, fp] =>
    if (ip.data.all Char.isDigit && fp.data.all Char.isDigit) && ip ≠ "" then
      let fd := fp.data ++ ['0', '0']
      let twoDigits := digitsToNat (String.mk (fd.take 2))
      let roundUp := match fp.data.drop 2 with
        | c :: _ => decide (53 ≤ c.toNat)
        | [] => false
      let cents := digitsToNat ip * 100 + twoDigits + (if roundUp then 1 else 0)
      (if neg then "-" else "") ++ toString (cents / 100) ++ "." ++ twoDigitStr (cents % 100)
    else r
  | _ => r

/-- `int(s)` on a string, rendered canonically; `none` when it raises. -/
def parseIntStr (s : String) : Option String :=
  let t := pyStrip s
  let p := match t.data with
    | '-' :: rest => (true, rest)
    | '+' :: rest => (false, rest)
    | l => (false, l)
  if p.2 ≠ [] && p.2.all Char.isDigit then
    let n := digitsToNat (String.mk p.2)
    some ((if p.1 && n ≠ 0 then "-" else "") ++ toString n)
  else none

/-- `_format_currency_amt(amount)`: floats with two decimals, ints plain,
both suffixed; anything `int()` rejects falls back to `str(amount)`. -/
def format_currency_amt (amount : JVal) : String :=
  match amount with
  | .num r =>
    if isFloatRepr r then formatFloat2 r ++ " Dirham (AED)"
    else r ++ " Dirham (AED)"
  | .bool b => (if b then "1" else "0") ++ " Dirham (AED)"
  | .str s =>
    match parseIntStr s with
    | some n => n ++ " Dirham (AED)"
    | none => s
  | v => pyStr v

/-- `a.startswith(b)`. -/
def startsWithStr (a b : String) : Bool := b.data.isPrefixOf a.data

/-- `_interpret_summary(result, stage)`: the deterministic summarizer.
`result` is always a mapping on every call site; helpers below treat a
non-mapping as an empty one (the source would raise there). Appending a
non-string `description` is rendered through `str` here, where Python's
`" ".join` would raise; no stored outcome hits that branch. -/
def interpret_summary (result : JVal) (stage : String) : String :=
  let rentries : List (String × JVal) := match result with | .obj es => es | _ => []
  let rget := fun k => (dget rentries k).getD JVal.null
  if pyTruthy (rget "human_readable_summary") then
    "Summary: " ++ pyStr (rget "human_readable_summary")
  else
    let parts : List String := []
    let parts :=
      if dmem rentries "outcome_label" || dmem rentries "outcome_code" then
        let label := pyOr (rget "outcome_label") (rget "outcome_code")
        let desc := rget "description"
        let parts := parts ++ ["Summary: " ++ pyStr label ++ "."]
        if pyTruthy desc then parts ++ [pyStr desc] else parts
      else if dmem rentries "status_label" || dmem rentries "prior_auth_id" ||
          dmem rentries "submission_status" || dmem rentries "doc_status" ||
          dmem rentries "coding_status" || dmem rentries "scrub_status" then
        let label := pyOr (rget "status_label") (pyOr (rget "submission_status")
          (pyOr (rget "doc_status") (pyOr (rget "coding_status")
            (pyOr (rget "scrub_status") (rget "prior_auth_id")))))
        parts ++ ["Summary: " ++ pyStr label ++ "."]
      else parts
    let parts :=
      match rget "patient" with
      | .obj pes =>
        let pgetv := fun k => (dget pes k).getD JVal.null
        let pparts : List String := []
        let pparts := if pyTruthy (pgetv "name") then pparts ++ ["Name=" ++ pyStr (pgetv "name")] else pparts
        let pid := pyOr (pgetv "patient_id") (pgetv "member_id")
        let pparts := if pyTruthy pid then pparts ++ ["ID=" ++ pyStr pid] else pparts
        let pparts := if pyTruthy (pgetv "dob") then pparts ++ ["DOB=" ++ pyStr (pgetv "dob")] else pparts
        if !pparts.isEmpty then parts ++ ["Patient: " ++ joinWith ", " pparts ++ "."] else parts
      | _ => parts
    let parts :=
      if dmem rentries "settlement_amount" then
        let parts := parts ++
          ["Record has been reconciled; total amount received is " ++
            format_currency_amt (rget "settlement_amount") ++ "."]
        if pyTruthy (rget "claim_ref_id") then
          parts ++ ["Claim reference: " ++ pyStr (rget "claim_ref_id") ++ "."]
        else parts
      else parts
    let parts :=
      if dmem rentries "paid_amount" || dmem rentries "remit_id" then
        let paid := pyOr (rget "paid_amount") (rget "paid")
        let parts :=
          if paid ≠ JVal.null then parts ++ ["Payment recorded: " ++ format_currency_amt paid ++ "."]
          else parts
        let parts :=
          if pyTruthy (rget "remit_id") then parts ++ ["Remittance ID: " ++ pyStr (rget "remit_id") ++ "."]
          else parts
        if pyTruthy (rget "claim_ref_id") then
          parts ++ ["Claim reference: " ++ pyStr (rget "claim_ref_id") ++ "."]
        else parts
      else parts
    if parts.isEmpty then
      let brief := jsonDumpsSorted result
      "Summary: " ++ (if brief.length < 800 then brief else String.mk (brief.data.take 800) ++ "...")
    else
      let final := joinWith " " (parts.filter (fun p => p ≠ ""))
      if startsWithStr (lowerStr final) "summary" then final else "Summary: " ++ final

/- ===== The in-memory stores and the mutating operations ===== -/

/-- A rule as stored in `RULES`. -/
structure Rule where
  id : String
  stage : String
  match_criteria : JVal
  outcome : JVal
  priority : Int
  reference_example : JVal
  created_at : String
deriving DecidableEq

/-- An audit event as appended to `EVENTS` by `_log_event`. -/
structure Event where
  timestamp : String
  actor : String
  stage_id : String
  event_type : String
  payload_summary : JVal
  reference_ids : Dict String
deriving DecidableEq

/-- The module-level mutable state: `RULES`, `EVENTS`, `UNIQUE_INDEX`, plus
a supply counter modelling the nondeterministic generators (`uuid.uuid4()`
inside `_gen_id`, and `datetime.utcnow()` inside `_now_iso`) as fresh,
pairwise-distinct tokens. The embedded logic never inspects the content of
a generated id or timestamp, only stores and compares it, so any injective
supply is a faithful model; distinctness of ids across calls is what
`uuid4` guarantees (up to its negligible collision probability). -/
structure SimState where
  rules : Dict Rule
  events : List Event
  unique_index : Dict (Dict String)
  counter : Nat
deriving DecidableEq

/-- The state at interpreter start, before the import-time seeding. -/
def initState : SimState := { rules := [], events := [], unique_index := [], counter := 0 }

/-- `_gen_id(prefix)`. -/
def gen_id (pfx : String) (s : SimState) : String × SimState :=
  (pfx ++ "-" ++ toString s.counter, { s with counter := s.counter + 1 })

/-- `_now_iso()`. -/
def now_iso (s : SimState) : String × SimState :=
  ("T" ++ toString s.counter ++ "Z", { s with counter := s.counter + 1 })

/-- `_log_event(...)`: append one event to the audit trail. -/
def log_event (actor stage_id event_type : String) (payload_summary : JVal)
    (refs : Dict String) (s : SimState) : SimState :=
  let p := now_iso s
  { p.2 with events := p.2.events ++
      [{ timestamp := p.1, actor := actor, stage_id := stage_id,
         event_type := event_type, payload_summary := payload_summary,
         reference_ids := refs }] }

/-- `x or {}` applied to a reference example. -/
def refExOrEmpty (v : JVal) : JVal := if pyTruthy v then v else .obj []

/-- The loop body of `_rebuild_index_for_stage`: skip rules of other
stages, compute the composite from the reference example, log an
`index_collision` event when the composite is already present, and insert
(overwriting). -/
def rebuild_step (stage : String) (uf : List String) (acc : SimState) (e : String × Rule) :
    SimState :=
  if e.2.stage ≠ stage then acc
  else
    match build_unique_composite_exact (refExOrEmpty e.2.reference_example) uf with
    | none => acc
    | some comp =>
      if comp = "" then acc
      else
        let cur := (dget acc.unique_index stage).getD []
        let acc :=
          match dget cur comp with
          | some oldRid =>
            log_event "system" stage "index_collision"
              (.obj [("composite", .str comp), ("old_rule", .str oldRid), ("new_rule", .str e.1)])
              [("rule_id_old", oldRid), ("rule_id_new", e.1)] acc
          | none => acc
        { acc with unique_index := dset acc.unique_index stage (dset cur comp e.1) }

/-- `_rebuild_index_for_stage(stage)`: clear the stage map, then re-insert
every rule of that stage in Rule Store iteration order, logging an
`index_collision` event and overwriting on a duplicate composite. -/
def rebuild_index_for_stage (stage : String) (s : SimState) : SimState :=
  let s := { s with unique_index := dset s.unique_index stage [] }
  let uf := (dget UNIQUE_FIELDS_PER_STAGE stage).getD []
  if uf.isEmpty then s
  else s.rules.foldl (rebuild_step stage uf) s

/-- `_index_rule_if_unique_fields(rule)`: the incremental single-rule
variant, logging `index_collision_single` and overwriting on collision. -/
def index_rule_if_unique_fields (rule : Rule) (s : SimState) : SimState :=
  let uf := (dget UNIQUE_FIELDS_PER_STAGE rule.stage).getD []
  if uf.isEmpty then s
  else
    match build_unique_composite_exact (refExOrEmpty rule.reference_example) uf with
    | none => s
    | some comp =>
      if comp = "" then s
      else
        let cur := (dget s.unique_index rule.stage).getD []
        let s :=
          match dget cur comp with
          | some existing =>
            log_event "system" rule.stage "index_collision_single"
              (.obj [("composite", .str comp), ("existing", .str existing), ("new", .str rule.id)])
              [("rule_id_existing", existing), ("rule_id_new", rule.id)] s
          | none => s
        { s with unique_index := dset s.unique_index rule.stage (dset cur comp rule.id) }

/-- The request body of the rule-CRUD endpoints (`RuleCreate`). -/
structure RuleCreate where
  stage : String
  match_criteria : JVal := .obj []
  outcome : JVal := .obj []
  priority : Int := 100
  reference_example : Option JVal := none

/-- `create_rule(rc)`: fresh id, store, incremental index. -/
def create_rule (rc : RuleCreate) (s : SimState) : Rule × SimState :=
  let p := gen_id "RULE" s
  let q := now_iso p.2
  let rule : Rule := {
    id := p.1, stage := rc.stage, match_criteria := rc.match_criteria,
    outcome := rc.outcome, priority := rc.priority,
    reference_example := (rc.reference_example.map refExOrEmpty).getD (.obj []),
    created_at := q.1 }
  let s := { q.2 with rules := dset q.2.rules p.1 rule }
  (rule, index_rule_if_unique_fields rule s)

/-- `update_rule(rule_id, rc)`: in-place field update keeping `id` and
`created_at`, then a rebuild of the *new* stage only (`rc.stage`); `none`
models the 404 on an unknown id. -/
def update_rule (rule_id : String) (rc : RuleCreate) (s : SimState) : Option Rule × SimState :=
  match dget s.rules rule_id with
  | none => (none, s)
  | some old =>
    let updated : Rule := { old with
      match_criteria := rc.match_criteria, outcome := rc.outcome,
      priority := rc.priority,
      reference_example := (rc.reference_example.map refExOrEmpty).getD (.obj []),
      stage := rc.stage }
    let s := { s with rules := dset s.rules rule_id updated }
    (some updated, rebuild_index_for_stage rc.stage s)

/-- `delete_rule(rule_id)`: remove and rebuild the deleted rule's stage;
`false` models the 404 on an unknown id. -/
def delete_rule (rule_id : String) (s : SimState) : Bool × SimState :=
  match dget s.rules rule_id with
  | none => (false, s)
  | some r =>
    let s := { s with rules := ddel s.rules rule_id }
    if r.stage ≠ "" then (true, rebuild_index_for_stage r.stage s) else (true, s)

/- ===== The resolution engine ===== -/

/-- The fixed unmatched response body (identical across the not-configured,
missing-fields and index-miss paths). -/
def unmatchedBody : JVal :=
  .obj [("matched", .bool false), ("message", .str "Invalid Credential.")]

/-- Is `nd` a contiguous sublist of the second list? -/
def infixAux (nd : List Char) : List Char → Bool
  | [] => nd.isEmpty
  | c :: rest => nd.isPrefixOf (c :: rest) || infixAux nd rest

/-- `needle in hay` for strings (substring containment). -/
def substrOf (needle hay : String) : Bool := infixAux needle.data hay.data

/-- The augmentation loop body: add each patient-info entry whose key the
existing patient mapping does not already contain, in order, at the end. -/
def mergePatientInto (existing : List (String × JVal)) (pinfo : Dict JVal) :
    List (String × JVal) :=
  pinfo.foldl (fun es kv => if dmem es kv.1 then es else es ++ [(kv.1, kv.2)]) existing

/-- The patient-augmentation block of the matched branch, for a nonempty
`patient_info`. `existing_patient = result.get("patient", {})`; a mapping is
merged without overwriting, while a non-mapping makes the Python loop or the
item assignment raise `TypeError` (a string only raises once a key is not a
substring of it, a list only once a key is not an element). -/
def apply_patient_augmentation (result : JVal) (pinfo : Dict JVal) : Except String JVal :=
  let rentries : List (String × JVal) := match result with | .obj es => es | _ => []
  let existing := match dget rentries "patient" with | some v => v | none => .obj []
  match existing with
  | .obj pes => .ok (JVal.obj (dset rentries "patient" (.obj (mergePatientInto pes pinfo))))
  | .str s0 =>
    if pinfo.all (fun kv => substrOf kv.1 s0) then
      .ok (JVal.obj (dset rentries "patient" (.str s0)))
    else .error "TypeError"
  | .arr xs =>
    if pinfo.all (fun kv => xs.contains (JVal.str kv.1)) then
      .ok (JVal.obj (dset rentries "patient" (.arr xs)))
    else .error "TypeError"
  | _ => .error "TypeError"

/-- The matched-branch response body: `result = deepcopy(rule["outcome"])`
(a deep copy is the value itself in this value-semantics model; the heap
model below carries the aliasing content of that call), PHI augmentation
for the configured stages, then the wrapped body with the summary. -/
def matched_result (stage : String) (rule : Rule) : Except String JVal :=
  let result := rule.outcome
  let augmented :=
    if STAGES_WITH_PATIENT_INFO.contains stage then
      let pinfo := extract_patient_info rule.reference_example
      if pinfo.isEmpty then Except.ok result
      else apply_patient_augmentation result pinfo
    else .ok result
  augmented.map (fun r =>
    JVal.obj [("matched", .bool true), ("stage", .str stage), ("result", r),
              ("summary", .str (interpret_summary r stage))])

/-- `_process_incoming_by_stage_exact(stage, payload)`: the per-request
state machine. The `Except` error value models an uncaught `TypeError`
(stale rule id in the index, or a non-mapping `patient` in the outcome);
events logged before the raise remain appended, as in the source. -/
def process_incoming_by_stage_exact (stage : String) (payload : JVal) (s : SimState) :
    Except String (JVal × Option String) × SimState :=
  let uf := (dget UNIQUE_FIELDS_PER_STAGE stage).getD []
  if uf.isEmpty then
    let p := gen_id "REQ" s
    let s := log_event "gateway" stage "stage_not_configured_runtime"
      (.obj [("stage", .str stage)]) [("request_sample", p.1)] p.2
    (.ok (unmatchedBody, none), s)
  else
    match build_unique_composite_exact payload uf with
    | none =>
      let p := gen_id "REQ" s
      let s := log_event "gateway" stage "no_match_missing_fields"
        (.obj [("expected_fields", .arr (uf.map JVal.str)),
               ("found", .arr ((extract_values_by_fieldnames payload uf).map (fun e => JVal.str e.1)))])
        [("request_sample", p.1)] p.2
      (.ok (unmatchedBody, none), s)
    | some composite =>
      let rid? := dget ((dget s.unique_index stage).getD []) composite
      let found := match rid? with | some r => r ≠ "" | none => false
      let p := gen_id "REQ" s
      let s := log_event "gateway" stage "unique_lookup_attempt"
        (.obj [("incoming_composite", .str composite), ("found_rule", .bool found)])
        [("request_sample", p.1)] p.2
      if found then
        let rid := rid?.getD ""
        let s := log_event "gateway" stage "match"
          (.obj [("rule_id", .str rid), ("composite", .str composite)])
          [("rule_id", rid)] s
        match dget s.rules rid with
        | none => (.error "TypeError", s)
        | some rule =>
          match matched_result stage rule with
          | .ok wrapped => (.ok (wrapped, some composite), s)
          | .error e => (.error e, s)
      else
        let q := gen_id "REQ" s
        let s := log_event "gateway" stage "no_match_index_miss"
          (.obj [("incoming_composite", .str composite)]) [("request_sample", q.1)] q.2
        (.ok (unmatchedBody, some composite), s)

/- ===== The seeder ===== -/

/-- The local `add(stage, outcome, key, reference_example, priority)` helper
of `_do_seed_all_rules` (`now` is captured once at seed start; every seed
call leaves `priority` at its default). -/
def seed_add (now : String) (stage : String) (outcome : JVal) (key : String)
    (reference_example : JVal) (s : SimState) : SimState :=
  let uf := (dget UNIQUE_FIELDS_PER_STAGE stage).getD []
  if !uf.isEmpty && (build_unique_composite_exact reference_example uf).isNone then
    log_event "system" stage "seed_rule_skipped_missing_unique_fields"
      (.obj [("scenario", .str key), ("expected_fields", .arr (uf.map JVal.str))])
      [("scenario", key)] s
  else
    let p := gen_id "RULE" s
    let rule : Rule :=
      { id := p.1, stage := stage, match_criteria := JVal.obj [],
        outcome := outcome, priority := 100, reference_example := reference_example,
        created_at := now }
    let s := { p.2 with rules := dset p.2.rules p.1 rule }
    index_rule_if_unique_fields rule s

/-- `_do_seed_all_rules()`: clear the three stores, seed every scenario in
source order (generator calls inside outcome literals run where the source
evaluates them), rebuild every configured stage's index, and return the
rule count. -/
def do_seed_all_rules (s0 : SimState) : Nat × SimState :=
  let s := { s0 with rules := [], events := [], unique_index := [] }
  let p := now_iso s
  let now := p.1
  let s := p.2
  let s := seed_add now "eligibility"
    (.obj [("outcome_code", (.str "ELG_OK")), ("outcome_label", (.str "Eligible")), ("description", (.str "Member active and service covered"))])
    "eligibility__ELG_OK"
    (.obj [("Header", (.obj [("SenderID", (.str "HOSP-001")), ("ReceiverID", (.str "PAYER-01")), ("TransactionDate", (.str "08/09/2025 14:30"))])), ("Claim", (.obj [("ID", (.str "CLM-ELG-0001")), ("MemberID", (.str "784-1987-1234567-1")), ("PatientShare", (.num "0.0")), ("Net", (.num "100.0"))])), ("Patient", (.obj [("PatientID", (.str "PT-ELG-0001")), ("Name", (.str "Aisha Khalid")), ("DOB", (.str "1988-06-15")), ("Gender", (.str "F"))]))]) s
  let s := seed_add now "eligibility"
    (.obj [("outcome_code", (.str "ELG_NOT_FOUND")), ("outcome_label", (.str "Not Found")), ("description", (.str "Member or policy not found"))])
    "eligibility__ELG_NOT_FOUND"
    (.obj [("Header", (.obj [("SenderID", (.str "HOSP-001")), ("ReceiverID", (.str "PAYER-01")), ("TransactionDate", (.str "08/09/2025 14:30"))])), ("Claim", (.obj [("ID", (.str "CLM-ELG-0002")), ("MemberID", (.str "784-1900-0000000-0")), ("Net", (.num "50.0"))])), ("Patient", (.obj [("PatientID", (.str "PT-ELG-0002")), ("Name", (.str "Mohammed Al Saeed")), ("DOB", (.str "1979-11-02")), ("Gender", (.str "M"))]))]) s
  let s := seed_add now "eligibility"
    (.obj [("outcome_code", (.str "ELG_EXPIRED")), ("outcome_label", (.str "Expired")), ("description", (.str "Policy expired before service date"))])
    "eligibility__ELG_EXPIRED"
    (.obj [("Header", (.obj [("SenderID", (.str "HOSP-001")), ("ReceiverID", (.str "PAYER-01")), ("TransactionDate", (.str "08/09/2025 14:30"))])), ("Claim", (.obj [("ID", (.str "CLM-ELG-0003")), ("MemberID", (.str "784-1980-9999999-9")), ("Net", (.num "75.0")), ("Encounter", (.obj [("Start", (.str "01/01/2025 10:00"))]))])), ("Patient", (.obj [("PatientID", (.str "PT-ELG-0003")), ("Name", (.str "Fatima Noor")), ("DOB", (.str "1965-03-21")), ("Gender", (.str "F"))]))]) s
  let s := seed_add now "eligibility"
    (.obj [("outcome_code", (.str "ELG_DEP_NOT_COVERED")), ("outcome_label", (.str "Dependent Not Covered")), ("description", (.str "Dependent not included"))])
    "eligibility__ELG_DEP_NOT_COVERED"
    (.obj [("Header", (.obj [("SenderID", (.str "HOSP-001")), ("ReceiverID", (.str "PAYER-01")), ("TransactionDate", (.str "08/09/2025 14:30"))])), ("Claim", (.obj [("ID", (.str "CLM-ELG-0004")), ("MemberID", (.str "784-1990-2222222-2")), ("PatientShare", (.num "10.0")), ("Net", (.num "60.0")), ("Contract", (.obj [("PackageName", (.str "SPOUSE_ONLY"))]))])), ("Patient", (.obj [("PatientID", (.str "PT-ELG-0004")), ("Name", (.str "Laila Hassan")), ("DOB", (.str "2002-08-30")), ("Gender", (.str "F"))]))]) s
  let s := seed_add now "eligibility"
    (.obj [("outcome_code", (.str "ELG_BENEFIT_EXHAUST")), ("outcome_label", (.str "Benefits Exhausted")), ("description", (.str "Benefit limit exceeded"))])
    "eligibility__ELG_BENEFIT_EXHAUST"
    (.obj [("Header", (.obj [("SenderID", (.str "HOSP-001")), ("ReceiverID", (.str "PAYER-01")), ("TransactionDate", (.str "08/09/2025 14:30"))])), ("Claim", (.obj [("ID", (.str "CLM-ELG-0005")), ("MemberID", (.str "784-1985-3333333-3")), ("Net", (.num "2000.0"))])), ("Patient", (.obj [("PatientID", (.str "PT-ELG-0005")), ("Name", (.str "Omar Khalil")), ("DOB", (.str "1991-12-05")), ("Gender", (.str "M"))]))]) s
  let s := seed_add now "eligibility"
    (.obj [("outcome_code", (.str "ELG_PREAUTH_REQUIRED")), ("outcome_label", (.str "Pre-auth Required")), ("description", (.str "Service flagged as requiring prior authorization")), ("required_actions", (.arr [(.str "Submit prior authorization")]))])
    "eligibility__ELG_PREAUTH_REQUIRED"
    (.obj [("Header", (.obj [("SenderID", (.str "HOSP-001")), ("ReceiverID", (.str "PAYER-01")), ("TransactionDate", (.str "08/09/2025 14:30"))])), ("Claim", (.obj [("ID", (.str "CLM-ELG-0006")), ("MemberID", (.str "784-1992-4444444-4")), ("Activity", (.arr [(.obj [("ID", (.str "A1")), ("Code", (.str "30520")), ("Net", (.num "150.0"))])]))])), ("Patient", (.obj [("PatientID", (.str "PT-ELG-0006")), ("Name", (.str "Samir Patel")), ("DOB", (.str "1987-04-10")), ("Gender", (.str "M"))]))]) s
  let s := seed_add now "eligibility"
    (.obj [("outcome_code", (.str "ELG_OUT_OF_NETWORK")), ("outcome_label", (.str "Out of Network")), ("description", (.str "Provider not in network"))])
    "eligibility__ELG_OUT_OF_NETWORK"
    (.obj [("Header", (.obj [("SenderID", (.str "HOSP-OUT-999")), ("ReceiverID", (.str "PAYER-01")), ("TransactionDate", (.str "08/09/2025 14:30"))])), ("Claim", (.obj [("ID", (.str "CLM-ELG-0007")), ("MemberID", (.str "784-1995-5555555-5")), ("Net", (.num "120.0")), ("ProviderID", (.str "HOSP-OUT-999"))])), ("Patient", (.obj [("PatientID", (.str "PT-ELG-0007")), ("Name", (.str "Huda Al Mansoori")), ("DOB", (.str "1994-01-20")), ("Gender", (.str "F"))]))]) s
  let s := seed_add now "eligibility"
    (.obj [("outcome_code", (.str "ELG_COB")), ("outcome_label", (.str "Coordination of Benefits")), ("description", (.str "Another payer primary"))])
    "eligibility__ELG_COB"
    (.obj [("Header", (.obj [("SenderID", (.str "HOSP-001")), ("ReceiverID", (.str "PAYER-01")), ("TransactionDate", (.str "08/09/2025 14:30"))])), ("Claim", (.obj [("ID", (.str "CLM-ELG-0008")), ("MemberID", (.str "784-1975-6666666-6")), ("Net", (.num "90.0")), ("Contract", (.obj [("PackageName", (.str "COB_PRIMARY"))]))])), ("Patient", (.obj [("PatientID", (.str "PT-ELG-0008")), ("Name", (.str "Ibrahim Musa")), ("DOB", (.str "1970-09-09")), ("Gender", (.str "M"))]))]) s
  let s := seed_add now "eligibility"
    (.obj [("outcome_code", (.str "ELG_PENDING")), ("outcome_label", (.str "Pending Enrollment")), ("description", (.str "Coverage effective in future"))])
    "eligibility__ELG_PENDING"
    (.obj [("Header", (.obj [("SenderID", (.str "HOSP-001")), ("ReceiverID", (.str "PAYER-01")), ("TransactionDate", (.str "08/09/2025 14:30"))])), ("Claim", (.obj [("ID", (.str "CLM-ELG-0009")), ("MemberID", (.str "784-2000-7777777-7")), ("Net", (.num "50.0")), ("Encounter", (.obj [("Start", (.str "01/11/2025 09:00"))]))])), ("Patient", (.obj [("PatientID", (.str "PT-ELG-0009")), ("Name", (.str "Nadia Rahman")), ("DOB", (.str "2001-07-07")), ("Gender", (.str "F"))]))]) s
  let s := seed_add now "eligibility"
    (.obj [("outcome_code", (.str "ELG_SUSPENDED")), ("outcome_label", (.str "Suspended / On Hold")), ("description", (.str "Administrative hold on policy"))])
    "eligibility__ELG_SUSPENDED"
    (.obj [("Header", (.obj [("SenderID", (.str "HOSP-001")), ("ReceiverID", (.str "PAYER-01")), ("TransactionDate", (.str "08/09/2025 14:30"))])), ("Claim", (.obj [("ID", (.str "CLM-ELG-0010")), ("MemberID", (.str "784-1988-8888888-8")), ("Net", (.num "30.0")), ("Contract", (.obj [("PackageName", (.str "SUSPENDED"))]))])), ("Patient", (.obj [("PatientID", (.str "PT-ELG-0010")), ("Name", (.str "Yusuf Abdullah")), ("DOB", (.str "1962-02-01")), ("Gender", (.str "M"))]))]) s
  let s := seed_add now "prior_authorization"
    (.obj [("prior_auth_id", (.str "PA-EX-APP-FULL")), ("status_code", (.str "PA_APPROVED")), ("status_label", (.str "Approved (Full)")), ("approved_items", (.arr [(.obj [("procedure_code", (.str "30520")), ("approved_units", (.num "1"))])])), ("expires_on", (.str "08/10/2025"))])
    "prior_authorization__PA_APPROVED"
    (.obj [("Header", (.obj [("SenderID", (.str "HOSP-001")), ("ReceiverID", (.str "PAYER-01")), ("TransactionDate", (.str "08/09/2025 14:31"))])), ("PriorAuthorizationRequest", (.obj [("RequestID", (.str "PAR-0001")), ("MemberID", (.str "784-1987-1234567-1")), ("ProcedureCodes", (.arr [(.str "30520")])), ("RequestedUnits", (.num "1"))])), ("Patient", (.obj [("PatientID", (.str "PT-PA-0001")), ("Name", (.str "Aisha Khalid")), ("DOB", (.str "1988-06-15")), ("Gender", (.str "F"))]))]) s
  let s := seed_add now "prior_authorization"
    (.obj [("prior_auth_id", (.str "PA-EX-APP-PART")), ("status_code", (.str "PA_APPROVED_PARTIAL")), ("status_label", (.str "Approved (Partial)")), ("approved_items", (.arr [(.obj [("procedure_code", (.str "30520")), ("approved_units", (.num "1"))])]))])
    "prior_authorization__PA_APPROVED_PART"
    (.obj [("Header", (.obj [("SenderID", (.str "HOSP-001")), ("ReceiverID", (.str "PAYER-01")), ("TransactionDate", (.str "08/09/2025 14:31"))])), ("PriorAuthorizationRequest", (.obj [("RequestID", (.str "PAR-0002")), ("MemberID", (.str "784-1987-1239999-1")), ("ProcedureCodes", (.arr [(.str "30520")])), ("RequestedUnits", (.num "2"))])), ("Patient", (.obj [("PatientID", (.str "PT-PA-0002")), ("Name", (.str "Khaled Mansoor")), ("DOB", (.str "1990-10-11")), ("Gender", (.str "M"))]))]) s
  let s := seed_add now "prior_authorization"
    (.obj [("prior_auth_id", (.str "PA-EX-PEND")), ("status_code", (.str "PA_PENDING_CLINICAL")), ("status_label", (.str "Pending Clinical Review")), ("comments", (.str "Queued for manual clinical review"))])
    "prior_authorization__PA_PENDING_CLINICAL"
    (.obj [("Header", (.obj [("SenderID", (.str "HOSP-001")), ("ReceiverID", (.str "PAYER-01")), ("TransactionDate", (.str "08/09/2025 14:31"))])), ("PriorAuthorizationRequest", (.obj [("RequestID", (.str "PAR-0003")), ("MemberID", (.str "784-1991-2223333-2")), ("ProcedureCodes", (.arr [(.str "99999")])), ("ClinicalNotes", (.str "See attached"))])), ("Patient", (.obj [("PatientID", (.str "PT-PA-0003")), ("Name", (.str "Rana Farouk")), ("DOB", (.str "1982-05-05")), ("Gender", (.str "F"))]))]) s
  let s := seed_add now "prior_authorization"
    (.obj [("prior_auth_id", (.str "PA-EX-DENY")), ("status_code", (.str "PA_DENIED")), ("status_label", (.str "Denied")), ("comments", (.str "Authorization denied"))])
    "prior_authorization__PA_DENY"
    (.obj [("Header", (.obj [("SenderID", (.str "HOSP-001")), ("ReceiverID", (.str "PAYER-01")), ("TransactionDate", (.str "08/09/2025 14:31"))])), ("PriorAuthorizationRequest", (.obj [("RequestID", (.str "PAR-0004")), ("MemberID", (.str "784-1982-4445555-4")), ("ProcedureCodes", (.arr [(.str "30520")])), ("ClinicalNotes", (.str "Not indicated"))])), ("Patient", (.obj [("PatientID", (.str "PT-PA-0004")), ("Name", (.str "Hassan Ali")), ("DOB", (.str "1978-04-14")), ("Gender", (.str "M"))]))]) s
  let s := seed_add now "clinical_documentation"
    (.obj [("doc_status", (.str "DOC_COMPLETE")), ("missing_items", (.arr [])), ("comments", (.str "All required clinical documentation present"))])
    "clinical_documentation__DOC_COMPLETE"
    (.obj [("Header", (.obj [("SenderID", (.str "HOSP-001")), ("ReceiverID", (.str "PAYER-01")), ("TransactionDate", (.str "08/09/2025 14:32"))])), ("ClinicalDocument", (.obj [("ProcedureCode", (.str "99214")), ("ClinicianID", (.str "DR-001")), ("Narrative", (.str "Comprehensive consultation with documented findings")), ("Attachments", (.arr [(.str "report.pdf")]))])), ("Patient", (.obj [("PatientID", (.str "PT-DOC-001")), ("Name", (.str "Laila Noor")), ("DOB", (.str "1975-12-12")), ("Gender", (.str "F"))]))]) s
  let s := seed_add now "clinical_documentation"
    (.obj [("doc_status", (.str "DOC_MISSING_ATTACH")), ("missing_items", (.arr [(.str "imaging_report")])), ("comments", (.str "Missing attachments"))])
    "clinical_documentation__DOC_MISSING_ATTACH"
    (.obj [("Header", (.obj [("SenderID", (.str "HOSP-001")), ("ReceiverID", (.str "PAYER-01")), ("TransactionDate", (.str "08/09/2025 14:32"))])), ("ClinicalDocument", (.obj [("ProcedureCode", (.str "30520")), ("ClinicianID", (.str "DR-002")), ("Attachments", (.arr []))])), ("Patient", (.obj [("PatientID", (.str "PT-DOC-002")), ("Name", (.str "Jamal Kazi")), ("DOB", (.str "1984-02-02")), ("Gender", (.str "M"))]))]) s
  let s := seed_add now "clinical_documentation"
    (.obj [("doc_status", (.str "DOC_INCOMPLETE_FIELDS")), ("missing_items", (.arr [(.str "clinician_id")])), ("comments", (.str "Missing clinician id"))])
    "clinical_documentation__DOC_INCOMPLETE_FIELDS"
    (.obj [("Header", (.obj [("SenderID", (.str "HOSP-001")), ("ReceiverID", (.str "PAYER-01")), ("TransactionDate", (.str "08/09/2025 14:32"))])), ("ClinicalDocument", (.obj [("ProcedureCode", (.str "99214"))])), ("Patient", (.obj [("PatientID", (.str "PT-DOC-003")), ("Name", (.str "Salma Qureshi")), ("DOB", (.str "1992-11-30")), ("Gender", (.str "F"))]))]) s
  let s := seed_add now "medical_coding"
    (.obj [("coding_status", (.str "CODE_VALID")), ("line_level_issues", (.arr [])), ("suggestions", (.arr []))])
    "medical_coding__CODE_VALID"
    (.obj [("Header", (.obj [("SenderID", (.str "HOSP-001")), ("ReceiverID", (.str "PAYER-01")), ("TransactionDate", (.str "08/09/2025 14:33"))])), ("Claim", (.obj [("ID", (.str "CLM-COD-0001")), ("ServiceLineItems", (.arr [(.obj [("ProcedureCode", (.str "99214")), ("Net", (.num "100.0"))])])), ("DiagnosisCodes", (.arr [(.str "I10")])), ("PatientAge", (.num "45")), ("PatientSex", (.str "M"))])), ("Patient", (.obj [("PatientID", (.str "PT-COD-0001")), ("Name", (.str "Hassan Omar")), ("DOB", (.str "1979-04-04")), ("Gender", (.str "M"))]))]) s
  let s := seed_add now "medical_coding"
    (.obj [("coding_status", (.str "CODE_INVALID")), ("line_level_issues", (.arr [(.obj [("line_index", (.num "0")), ("issue_code", (.str "CODE_INVALID")), ("description", (.str "Procedure code invalid"))])]))])
    "medical_coding__CODE_INVALID"
    (.obj [("Header", (.obj [("SenderID", (.str "HOSP-001")), ("ReceiverID", (.str "PAYER-01")), ("TransactionDate", (.str "08/09/2025 14:33"))])), ("Claim", (.obj [("ID", (.str "CLM-COD-0002")), ("ServiceLineItems", (.arr [(.obj [("ProcedureCode", (.str "XXXX")), ("Net", (.num "50.0"))])])), ("DiagnosisCodes", (.arr [(.str "I10")]))])), ("Patient", (.obj [("PatientID", (.str "PT-COD-0002")), ("Name", (.str "Tariq Ali")), ("DOB", (.str "1986-06-06")), ("Gender", (.str "M"))]))]) s
  let (tid, s) := gen_id "TID" s
  let s := seed_add now "claims_scrubbing"
    (.obj [("scrub_status", (.str "SCRUB_PASS")), ("errors", (.arr [])), ("warnings", (.arr [])), ("tracking_id", (.str tid))])
    "claims_scrubbing__SCRUB_PASS"
    (.obj [("Header", (.obj [("SenderID", (.str "HOSP-001")), ("ReceiverID", (.str "PAYER-01")), ("TransactionDate", (.str "08/09/2025 14:34"))])), ("Claim", (.obj [("ExternalID", (.str "REF_SCRUB_PASS")), ("Patient", (.obj [("MemberID", (.str "784-1987-1234567-1"))])), ("ServiceLines", (.arr [(.obj [("ProcedureCode", (.str "99214")), ("Charge", (.num "100.0"))])])), ("ProviderID", (.str "HOSP-001")), ("DateOfService", (.str "01/09/2025"))])), ("Patient", (.obj [("PatientID", (.str "PT-SCRUB-0001")), ("Name", (.str "Aisha Khalid")), ("DOB", (.str "1988-06-15")), ("Gender", (.str "F"))]))]) s
  let s := seed_add now "claims_scrubbing"
    (.obj [("scrub_status", (.str "SCRUB_HARD_REJECT")), ("errors", (.arr [(.obj [("field", (.str "patient")), ("error_code", (.str "MISSING_FIELD")), ("message", (.str "patient missing"))])])), ("warnings", (.arr [])), ("tracking_id", .null)])
    "claims_scrubbing__SCRUB_HARD_REJECT"
    (.obj [("Header", (.obj [("SenderID", (.str "HOSP-001")), ("ReceiverID", (.str "PAYER-01")), ("TransactionDate", (.str "08/09/2025 14:34"))])), ("Claim", (.obj [("ExternalID", (.str "REF_SCRUB_HARD")), ("ServiceLines", (.arr []))]))]) s
  let (ack1, s) := now_iso s
  let s := seed_add now "claims_submission"
    (.obj [("submission_status", (.str "SUB_ACCEPTED")), ("claim_ref_id", (.str "CLM-EX-1")), ("ack_timestamp", (.str ack1)), ("queued_position", (.num "0")), ("comments", (.str "Claim accepted and queued"))])
    "claims_submission__SUB_ACCEPTED"
    (.obj [("Header", (.obj [("SenderID", (.str "HOSP-001")), ("ReceiverID", (.str "PAYER-01")), ("TransactionDate", (.str "08/09/2025 14:35"))])), ("ClaimSubmission", (.obj [("ExternalID", (.str "REF_SUB_ACCEPTED")), ("ClaimID", (.str "CLM-EX-1")), ("Total", (.num "150.0"))])), ("Patient", (.obj [("PatientID", (.str "PT-SUB-0001")), ("Name", (.str "Aisha Khalid")), ("DOB", (.str "1988-06-15")), ("Gender", (.str "F"))]))]) s
  let s := seed_add now "claims_submission"
    (.obj [("submission_status", (.str "SUB_REJECTED_GATEWAY")), ("claim_ref_id", .null), ("comments", (.str "Rejected at gateway due to scrub"))])
    "claims_submission__SUB_REJECTED_GATEWAY"
    (.obj [("Header", (.obj [("SenderID", (.str "HOSP-001")), ("ReceiverID", (.str "GATEWAY-01")), ("TransactionDate", (.str "08/09/2025 14:35"))])), ("ClaimSubmission", (.obj [("ExternalID", (.str "REF_SUB_REJECTED_GATEWAY")), ("SimulateBadScrub", (.bool true))]))]) s
  let (ack2, s) := now_iso s
  let s := seed_add now "claims_submission"
    (.obj [("submission_status", (.str "SUB_ROUTED")), ("claim_ref_id", (.str "CLM-ROUTED-1")), ("ack_timestamp", (.str ack2)), ("queued_position", (.num "0")), ("comments", (.str "Routed to payer"))])
    "claims_submission__SUB_ROUTED"
    (.obj [("Header", (.obj [("SenderID", (.str "HOSP-001")), ("ReceiverID", (.str "PAYER-02")), ("TransactionDate", (.str "08/09/2025 14:35"))])), ("ClaimSubmission", (.obj [("ExternalID", (.str "REF_SUB_ROUTED")), ("ClaimID", (.str "CLM-ROUTED-1")), ("RoutedTo", (.str "PAYER-02"))])), ("Patient", (.obj [("PatientID", (.str "PT-SUB-0003")), ("Name", (.str "Routed Patient")), ("DOB", (.str "1982-02-02")), ("Gender", (.str "M"))]))]) s
  let s := seed_add now "claims_resubmission"
    (.obj [("resubmission_status", (.str "RESUB_ACCEPTED")), ("new_claim_ref_id", (.str "CLM-RES-1")), ("comments", (.str "Resubmission accepted"))])
    "claims_resubmission__RESUB_ACCEPTED"
    (.obj [("Resubmission", (.obj [("OriginalClaimRefID", (.str "REF_RES_ACCEPT")), ("ResubmissionType", (.str "correction")), ("CorrectionPayload", (.obj [("FieldChanged", (.str "Diagnosis"))])), ("NewClaimID", (.str "CLM-RES-1"))])), ("Patient", (.obj [("PatientID", (.str "PT-RES-0001")), ("Name", (.str "Resub Accepted")), ("DOB", (.str "1987-07-07")), ("Gender", (.str "F"))]))]) s
  let s := seed_add now "claims_resubmission"
    (.obj [("resubmission_status", (.str "RESUB_REJECTED")), ("new_claim_ref_id", .null), ("comments", (.str "Resubmission rejected"))])
    "claims_resubmission__RESUB_REJECTED"
    (.obj [("Resubmission", (.obj [("OriginalClaimRefID", (.str "REF_RES_REJECT")), ("ResubmissionType", (.str "correction")), ("NewClaimID", .null)])), ("Patient", (.obj [("PatientID", (.str "PT-RES-0002")), ("Name", (.str "Resub Rejected")), ("DOB", (.str "1986-06-06")), ("Gender", (.str "M"))]))]) s
  let s := seed_add now "remittance_tracking"
    (.obj [("remit_id", (.str "RA-PAID-1")), ("claim_ref_id", (.str "CLM-PAID-1")), ("remit_status", (.str "RA_PAID_IN_FULL")), ("paid_amount", (.num "100.0")), ("adjustments", (.arr [])), ("denial_codes", (.arr [])), ("payment_date", (.str "08/09/2025"))])
    "remittance_tracking__RA_PAID_IN_FULL"
    (.obj [("Remittance", (.obj [("RemitID", (.str "RA-PAID-1")), ("ClaimRefID", (.str "CLM-PAID-1")), ("RemitStatus", (.str "RA_PAID_IN_FULL")), ("PaidAmount", (.num "100.0")), ("Adjustments", (.arr [])), ("DenialCodes", (.arr [])), ("PaymentDate", (.str "08/09/2025"))]))]) s
  let s := seed_add now "remittance_tracking"
    (.obj [("remit_id", (.str "RA-PART-1")), ("claim_ref_id", (.str "CLM-PART-1")), ("remit_status", (.str "RA_PARTIAL_PAYMENT")), ("paid_amount", (.num "60.0")), ("adjustments", (.arr [(.obj [("code", (.str "ADJ_OON")), ("amount", (.num "40.0")), ("description", (.str "Out-of-network adjustment"))])])), ("denial_codes", (.arr [])), ("payment_date", (.str "08/09/2025"))])
    "remittance_tracking__RA_PARTIAL_PAYMENT"
    (.obj [("Remittance", (.obj [("RemitID", (.str "RA-PART-1")), ("ClaimRefID", (.str "CLM-PART-1")), ("RemitStatus", (.str "RA_PARTIAL_PAYMENT")), ("PaidAmount", (.num "60.0")), ("Adjustments", (.arr [(.obj [("Code", (.str "ADJ_OON")), ("Amount", (.num "40.0"))])])), ("DenialCodes", (.arr [])), ("PaymentDate", (.str "08/09/2025"))]))]) s
  let s := seed_add now "remittance_tracking"
    (.obj [("remit_id", (.str "RA-DENY-1")), ("claim_ref_id", (.str "CLM-DENY-1")), ("remit_status", (.str "RA_DENIED")), ("paid_amount", (.num "0.0")), ("adjustments", (.arr [])), ("denial_codes", (.arr [(.obj [("code", (.str "DN01")), ("description", (.str "Denied - not covered"))])])), ("payment_date", (.str "08/09/2025"))])
    "remittance_tracking__RA_DENIED"
    (.obj [("Remittance", (.obj [("RemitID", (.str "RA-DENY-1")), ("ClaimRefID", (.str "CLM-DENY-1")), ("RemitStatus", (.str "RA_DENIED")), ("PaidAmount", (.num "0.0")), ("Adjustments", (.arr [])), ("DenialCodes", (.arr [(.obj [("Code", (.str "DN01")), ("Description", (.str "Not covered"))])])), ("PaymentDate", (.str "08/09/2025"))]))]) s
  let (ap1, s) := gen_id "APPEAL" s
  let s := seed_add now "denial_management"
    (.obj [("denial_management_status", (.str "DEN_MGR_ANALYZED")), ("next_steps", (.arr [(.str "Analyze denial")])), ("appeal_ref_id", (.str ap1))])
    "denial_management__DEN_MGR_ANALYZED"
    (.obj [("Denial", (.obj [("ClaimRefID", (.str "REF_DEN_ANALYZED")), ("RemitID", (.str "REF_REM_1")), ("Action", (.str "ANALYZE"))]))]) s
  let (ap2, s) := gen_id "APPEAL" s
  let s := seed_add now "denial_management"
    (.obj [("denial_management_status", (.str "DEN_MGR_APPEAL_SUBMITTED")), ("next_steps", (.arr [(.str "Submit appeal")])), ("appeal_ref_id", (.str ap2))])
    "denial_management__DEN_MGR_APPEAL_SUBMITTED"
    (.obj [("Denial", (.obj [("ClaimRefID", (.str "REF_DEN_APPEAL_SUB")), ("RemitID", (.str "REF_REM_2")), ("Action", (.str "APPEAL_SUBMIT"))]))]) s
  let s := seed_add now "remittance_post_resubmission"
    (.obj [("remit_id", (.str "RA-FINAL-PAID-1")), ("status", (.str "RA_FINAL_PAID")), ("paid_amount", (.num "100.0")), ("denial_codes", (.arr [])), ("comments", (.str ""))])
    "remittance_post_resubmission__RA_FINAL_PAID"
    (.obj [("RemittancePost", (.obj [("NewClaimRefID", (.str "REF_RA_FINAL_PAID")), ("RemitID", (.str "RA-FINAL-PAID-1")), ("Status", (.str "RA_FINAL_PAID")), ("PaidAmount", (.num "100.0"))]))]) s
  let s := seed_add now "reconciliation"
    (.obj [("recon_id", (.str "RECON-OK-1")), ("status", (.str "RECON_RECONCILED")), ("settlement_amount", (.num "100.0")), ("notes", (.str "Agreement reached"))])
    "reconciliation__RECON_RECONCILED"
    (.obj [("Reconciliation", (.obj [("ReconID", (.str "RECON-OK-1")), ("RequestedResolution", (.obj [("Amount", (.num "100.0"))])), ("ClaimHistory", (.arr [(.obj [("Amount", (.num "100.0"))])])), ("Status", (.str "RECON_RECONCILED"))]))]) s
  let s := seed_add now "reconciliation"
    (.obj [("recon_id", (.str "RECON-PART-1")), ("status", (.str "RECON_PARTIAL_SETTLE")), ("settlement_amount", (.num "80.0")), ("notes", (.str "Partial settlement"))])
    "reconciliation__RECON_PARTIAL_SETTLE"
    (.obj [("Reconciliation", (.obj [("ReconID", (.str "RECON-PART-1")), ("RequestedResolution", (.obj [("Amount", (.num "80.0"))])), ("ClaimHistory", (.arr [(.obj [("Amount", (.num "100.0"))])])), ("Status", (.str "RECON_PARTIAL_SETTLE"))]))]) s
  let s := UNIQUE_FIELDS_PER_STAGE.foldl (fun acc e => rebuild_index_for_stage e.1 acc) s
  (s.rules.length, s)

/-- The state right after module import, when `_do_seed_all_rules()` has
run. -/
def importState : SimState := (do_seed_all_rules initState).2

/- ===== Generic dictionary lemmas ===== -/

theorem dget_nil {α : Type} (k : String) : dget ([] : Dict α) k = none := rfl

theorem dget_cons {α : Type} (k1 : String) (v1 : α) (rest : Dict α) (k : String) :
    dget ((k1, v1) :: rest) k = if k1 = k then some v1 else dget rest k := by
  unfold dget
  rw [List.find?_cons]
  by_cases h : k1 = k <;> simp [h]

theorem dget_append {α : Type} (d1 d2 : Dict α) (k : String) :
    dget (d1 ++ d2) k = (dget d1 k).or (dget d2 k) := by
  simp only [dget, List.find?_append]
  cases List.find? (fun e => e.1 = k) d1 <;> simp

theorem dmem_eq_isSome {α : Type} (d : Dict α) (k : String) :
    dmem d k = (dget d k).isSome := by
  induction d with
  | nil => rfl
  | cons e rest ih =>
    rcases e with ⟨k1, v1⟩
    by_cases h : k1 = k <;> simp [dmem, dget_cons, h] <;> simpa [dmem] using ih

theorem dget_eq_none_of_not_dmem {α : Type} {d : Dict α} {k : String}
    (h : dmem d k = false) : dget d k = none := by
  have h2 := dmem_eq_isSome d k
  rw [h] at h2
  cases hd : dget d k
  · rfl
  · rw [hd] at h2; simp at h2

theorem dget_map_upd {α : Type} (d : Dict α) (k : String) (v : α)
    (h : dmem d k = true) :
    dget (d.map (fun e => if e.1 = k then (k, v) else e)) k = some v := by
  induction d with
  | nil => simp [dmem] at h
  | cons e rest ih =>
    rcases e with ⟨k1, v1⟩
    by_cases hk : k1 = k
    · simp [hk, dget_cons]
    · have hrest : dmem rest k = true := by
        simpa [dmem, hk] using h
      simp [hk, dget_cons, ih hrest]

theorem dget_map_upd_ne {α : Type} (d : Dict α) (k k' : String) (v : α) (hne : k ≠ k') :
    dget (d.map (fun e => if e.1 = k then (k, v) else e)) k' = dget d k' := by
  induction d with
  | nil => rfl
  | cons e rest ih =>
    rcases e with ⟨k1, v1⟩
    by_cases hk : k1 = k
    · have hk1 : k1 ≠ k' := by rw [hk]; exact hne
      simp [hk, dget_cons, hne, hk1, ih]
    · by_cases hk' : k1 = k'
      · simp [hk, dget_cons, hk', Ne.symm hne]
      · simp [hk, dget_cons, hk', ih]

theorem dget_dset_self {α : Type} (d : Dict α) (k : String) (v : α) :
    dget (dset d k v) k = some v := by
  unfold dset
  by_cases h : dmem d k
  · simp only [h, if_true]
    exact dget_map_upd d k v h
  · have hb : dmem d k = false := by simpa using h
    simp [h, dget_append, dget_eq_none_of_not_dmem hb, dget_cons]

theorem dget_dset_ne {α : Type} (d : Dict α) (k k' : String) (v : α) (hne : k ≠ k') :
    dget (dset d k v) k' = dget d k' := by
  unfold dset
  by_cases h : dmem d k
  · simp only [h, if_true]
    exact dget_map_upd_ne d k k' v hne
  · rw [if_neg h, dget_append]
    have h1 : dget [(k, v)] k' = none := by
      rw [dget_cons, if_neg hne]
      rfl
    rw [h1]
    cases dget d k' <;> rfl

/-- `mapM` over `Option` fails as soon as any element fails. -/
theorem mapM_eq_none_of_mem {α β : Type} (f : α → Option β) :
    ∀ (l : List α), (∃ a ∈ l, f a = none) → l.mapM f = none := by
  intro l
  induction l with
  | nil => rintro ⟨a, ha, _⟩; cases ha
  | cons x xs ih =>
    rintro ⟨a, ha, hfa⟩
    rcases List.mem_cons.mp ha with h | h
    · subst h
      rw [List.mapM_cons, hfa]
      rfl
    · cases hfx : f x
      · rw [List.mapM_cons, hfx]
        rfl
      · rw [List.mapM_cons, hfx, ih ⟨a, h, hfa⟩]
        rfl

/- ===== C1: index reconstructibility after rule mutations ===== -/

/-- The create request of the C1 scenario: an eligibility rule whose
reference example yields the composite `ID=A1||MemberID=M1`. -/
def c1CreateEligibility : RuleCreate :=
  { stage := "eligibility",
    reference_example := some (.obj [("Claim", .obj [("ID", .str "A1"), ("MemberID", .str "M1")])]) }

/-- The update of the C1 scenario: the same rule moved to stage
`medical_coding` (whose only unique field is `Claim.ID`). -/
def c1UpdateToMedicalCoding : RuleCreate :=
  { stage := "medical_coding",
    reference_example := some (.obj [("Claim", .obj [("ID", .str "A1")])]) }

/-- The state after creating the eligibility rule (which gets id `RULE-0`)
and then updating it to stage `medical_coding`. -/
def c1StateAfterUpdate : SimState :=
  (update_rule "RULE-0" c1UpdateToMedicalCoding
    (create_rule c1CreateEligibility initState).2).2

/-- C1: the reconstructibility invariant is violated by the code: after an
`update_rule` that changes the only rule's stage from `eligibility` to
`medical_coding`, the eligibility map of the Unique Index still holds the
stale entry for the rule, while rebuilding eligibility from the Rule Store
yields the empty map (`update_rule` rebuilds only the new stage). -/
theorem c1_stage_change_update_leaves_stale_entry :
    dget c1StateAfterUpdate.unique_index "eligibility"
      = some [("ID=A1||MemberID=M1", "RULE-0")] ∧
    dget (rebuild_index_for_stage "eligibility" c1StateAfterUpdate).unique_index "eligibility"
      = some [] ∧
    dget c1StateAfterUpdate.unique_index "medical_coding"
      = some [("ID=A1", "RULE-0")] ∧
    dget c1StateAfterUpdate.rules "RULE-0" ≠ none := by decide

/- ===== C4: idempotent re-seed ===== -/

/-- The first seeding run (as performed at module import). -/
def seedOnce : Nat × SimState := do_seed_all_rules initState

/-- A second seeding run immediately after the first. -/
def seedTwice : Nat × SimState := do_seed_all_rules seedOnce.2

/-- C4 counterexample: re-seeding is not field-for-field idempotent. The
rule ids are freshly generated on every run (`_gen_id` draws from
`uuid.uuid4()`, modelled as a fresh supply), so the second run's Rule Store
differs from the first in every rule id, and the Unique Index differs in
every stored rule id. -/
theorem c4_reseed_not_field_identical :
    seedOnce.2.rules.map (fun e => e.1) ≠ seedTwice.2.rules.map (fun e => e.1) ∧
    seedOnce.2.rules ≠ seedTwice.2.rules ∧
    seedOnce.2.unique_index ≠ seedTwice.2.unique_index := by decide

/-- The generated-at-seed-time outcome fields (`tracking_id` from
`_gen_id("TID")`, `ack_timestamp` from `_now_iso()`, `appeal_ref_id` from
`_gen_id("APPEAL")`). -/
def eraseGeneratedOutcomeFields (o : JVal) : JVal :=
  match o with
  | .obj es => .obj (es.filter (fun e =>
      e.1 ≠ "tracking_id" && e.1 ≠ "ack_timestamp" && e.1 ≠ "appeal_ref_id"))
  | v => v

/-- Everything about a stored rule except its generated id, generated
creation timestamp, and generated outcome fields. -/
def ruleShape (r : Rule) : String × JVal × JVal × Int × JVal :=
  (r.stage, r.match_criteria, eraseGeneratedOutcomeFields r.outcome, r.priority,
    r.reference_example)

/-- Equal images under two projections give an equal image under their
pairing. -/
theorem map_pair_of_map_eq {α β γ : Type} (f : α → β) (g : α → γ) :
    ∀ (l1 l2 : List α), l1.map f = l2.map f → l1.map g = l2.map g →
      l1.map (fun x => (f x, g x)) = l2.map (fun x => (f x, g x)) := by
  intro l1
  induction l1 with
  | nil =>
    intro l2 hf _
    cases l2 with
    | nil => rfl
    | cons y ys => simp at hf
  | cons x xs ih =>
    intro l2 hf hg
    cases l2 with
    | nil => simp at hf
    | cons y ys =>
      simp only [List.map_cons, List.cons.injEq] at hf hg ⊢
      exact ⟨by rw [hf.1, hg.1], ih ys hf.2 hg.2⟩

theorem seed_shape_cheap :
    seedOnce.2.rules.map (fun e => (e.2.stage, e.2.match_criteria, e.2.priority))
      = seedTwice.2.rules.map (fun e => (e.2.stage, e.2.match_criteria, e.2.priority)) := by decide

theorem seed_shape_outcome :
    seedOnce.2.rules.map (fun e => eraseGeneratedOutcomeFields e.2.outcome)
      = seedTwice.2.rules.map (fun e => eraseGeneratedOutcomeFields e.2.outcome) := by decide

theorem seed_shape_refex :
    seedOnce.2.rules.map (fun e => e.2.reference_example)
      = seedTwice.2.rules.map (fun e => e.2.reference_example) := by decide

theorem seed_count_eq : seedOnce.1 = seedTwice.1 ∧ seedOnce.1 = 32 := by decide

theorem seed_index_keys_eq :
    seedOnce.2.unique_index.map (fun e => (e.1, e.2.map (fun kv => kv.1)))
      = seedTwice.2.unique_index.map (fun e => (e.1, e.2.map (fun kv => kv.1))) := by decide

/-- C4 amended: two consecutive `seedAll` runs install the same number of
rules (32: two scenarios are skipped for missing unique fields), the same
rules in the same order up to the freshly generated ids, creation
timestamps and generated outcome fields, and Unique Indexes with identical
per-stage composite-key lists (the indexed rule ids themselves are the
fresh ids, so full index equality fails; see the counterexample). -/
theorem c4_reseed_same_count_and_shape :
    seedOnce.1 = seedTwice.1 ∧
    seedOnce.1 = 32 ∧
    seedOnce.2.rules.map (fun e => ruleShape e.2)
      = seedTwice.2.rules.map (fun e => ruleShape e.2) ∧
    seedOnce.2.unique_index.map (fun e => (e.1, e.2.map (fun kv => kv.1)))
      = seedTwice.2.unique_index.map (fun e => (e.1, e.2.map (fun kv => kv.1))) := by
  refine ⟨seed_count_eq.1, seed_count_eq.2, ?_, seed_index_keys_eq⟩
  have hstage := map_pair_of_map_eq (fun e => e.2.stage)
    (fun e => (e.2.match_criteria, e.2.priority)) seedOnce.2.rules seedTwice.2.rules
  have hcheap := seed_shape_cheap
  have h1 : seedOnce.2.rules.map (fun e => e.2.match_criteria)
      = seedTwice.2.rules.map (fun e => e.2.match_criteria) := by
    have := congrArg (List.map (fun p : String × JVal × Int => p.2.1)) hcheap
    simpa [Function.comp] using this
  have h2 : seedOnce.2.rules.map (fun e => e.2.stage)
      = seedTwice.2.rules.map (fun e => e.2.stage) := by
    have := congrArg (List.map (fun p : String × JVal × Int => p.1)) hcheap
    simpa [Function.comp] using this
  have h3 : seedOnce.2.rules.map (fun e => e.2.priority)
      = seedTwice.2.rules.map (fun e => e.2.priority) := by
    have := congrArg (List.map (fun p : String × JVal × Int => p.2.2)) hcheap
    simpa [Function.comp] using this
  have h45 := map_pair_of_map_eq (fun e : String × Rule => e.2.priority)
    (fun e => e.2.reference_example) seedOnce.2.rules seedTwice.2.rules h3 seed_shape_refex
  have h345 := map_pair_of_map_eq (fun e : String × Rule => eraseGeneratedOutcomeFields e.2.outcome)
    (fun e => (e.2.priority, e.2.reference_example)) seedOnce.2.rules seedTwice.2.rules
    seed_shape_outcome h45
  have h2345 := map_pair_of_map_eq (fun e : String × Rule => e.2.match_criteria)
    (fun e => (eraseGeneratedOutcomeFields e.2.outcome, e.2.priority, e.2.reference_example))
    seedOnce.2.rules seedTwice.2.rules h1 h345
  have h12345 := map_pair_of_map_eq (fun e : String × Rule => e.2.stage)
    (fun e => (e.2.match_criteria, eraseGeneratedOutcomeFields e.2.outcome,
      e.2.priority, e.2.reference_example))
    seedOnce.2.rules seedTwice.2.rules h2 h2345
  exact h12345

/- ===== C6 counterexample: the delimiter is producible by normalization ===== -/

/-- C6 counterexample: value normalization preserves `|`, the delimiter's
character, so a normalized value can contain the delimiter; concretely, the
one-field document `A = "x||B=y"` and the two-field document
`A = "x", B = "y"` build the very same composite key, so the key does not
parse unambiguously back into its fields. -/
theorem c6_normalization_produces_delimiter_char :
    normalize_value_exact (.str "a|b") = some "a|b" ∧
    ("a|b".data.contains '|') = true ∧
    build_unique_composite_exact (.obj [("A", .str "x||B=y")]) ["A"]
      = build_unique_composite_exact (.obj [("A", .str "x"), ("B", .str "y")]) ["A", "B"] ∧
    build_unique_composite_exact (.obj [("A", .str "x||B=y")]) ["A"]
      = some "A=x||B=y" := by decide

/- ===== C9 and C10: the fallback search's order ===== -/

/-- The current-level lookup performed first at a mapping: exact key, then
first case-insensitively equal key. -/
def levelLookup (entries : List (String × JVal)) (key : String) : Option JVal :=
  match dget entries key with
  | some v => some v
  | none => (entries.find? (fun e => lowerStr e.1 = lowerStr key)).map (fun e => e.2)

/-- First non-`None` element of a list of search results. -/
def firstNonNull : List JVal → JVal
  | [] => .null
  | x :: rest =>
    match x with
    | .null => firstNonNull rest
    | v => v

theorem ffko_obj_eq (entries : List (String × JVal)) (key : String) :
    find_first_key_occurrence (.obj entries) key =
      match dget entries key with
      | some v => v
      | none =>
        match entries.find? (fun e => lowerStr e.1 = lowerStr key) with
        | some e => e.2
        | none => ffko_entries entries key := rfl

theorem ffko_entries_eq (key : String) :
    ∀ es : List (String × JVal),
      ffko_entries es key = firstNonNull (es.map (fun e => find_first_key_occurrence e.2 key)) := by
  intro es
  induction es with
  | nil => rfl
  | cons e rest ih =>
    rcases e with ⟨k, v⟩
    cases h : find_first_key_occurrence v key <;>
      simp [ffko_entries, firstNonNull, h, ih]

theorem ffko_list_eq (key : String) :
    ∀ xs : List JVal,
      ffko_list xs key = firstNonNull (xs.map (fun x => find_first_key_occurrence x key)) := by
  intro xs
  induction xs with
  | nil => rfl
  | cons x rest ih =>
    cases h : find_first_key_occurrence x key <;>
      simp [ffko_list, firstNonNull, h, ih]

theorem ffko_obj_levelLookup (entries : List (String × JVal)) (key : String) :
    find_first_key_occurrence (.obj entries) key =
      (levelLookup entries key).getD
        (firstNonNull (entries.map (fun e => find_first_key_occurrence e.2 key))) := by
  rw [ffko_obj_eq, ← ffko_entries_eq]
  unfold levelLookup
  cases hd : dget entries key
  · cases hf : entries.find? (fun e => lowerStr e.1 = lowerStr key) <;> simp
  · simp

/-- Modelled from the spec (the search order claim C9 asserts): a pure
depth-first search that returns the value of the first key whose name
matches case-insensitively in traversal order — at a mapping the entries in
declared order, testing each key before descending into its value; at a
sequence the elements in order. -/
def specFindFirstDFS (j : JVal) (key : String) : Option JVal :=
  match j with
  | .obj entries => specDFSEntries entries key
  | .arr xs => specDFSList xs key
  | _ => none
where
  specDFSEntries : List (String × JVal) → String → Option JVal
    | [], _ => none
    | (k, v) :: es, key =>
      if lowerStr k = lowerStr key then some v
      else
        match specFindFirstDFS v key with
        | some w => some w
        | none => specDFSEntries es key
  specDFSList : List JVal → String → Option JVal
    | [], _ => none
    | x :: xs, key =>
      match specFindFirstDFS x key with
      | some w => some w
      | none => specDFSList xs key

/-- The document separating the implemented search from the claimed one:
its first case-insensitive match in depth-first declared order is the
nested `x` (value 1) inside `a`, but the implementation checks the current
level's keys before recursing and returns the sibling `x` (value 2). -/
def c9Doc : JVal := .obj [("a", .obj [("x", .num "1")]), ("x", .num "2")]

/-- C9 counterexample: `findFirstOccurrence` is not the claimed pure
depth-first first-match search — on `c9Doc` the DFS-first match is the
nested value 1, while the implementation returns the sibling value 2,
because each mapping level's own keys (exact first, then case-insensitive)
are consulted before any recursion into values. -/
theorem c9_search_is_not_pure_dfs :
    find_first_key_occurrence c9Doc "x" = .num "2" ∧
    specFindFirstDFS c9Doc "x" = some (.num "1") ∧
    some (find_first_key_occurrence c9Doc "x") ≠ specFindFirstDFS c9Doc "x" := by decide

/-- C9 amended: the search order actually implemented — at a mapping, an
exact key at the current level is returned first, else the first
case-insensitively equal key at the current level, and only then are the
values searched recursively in declared order with `None` recursive results
skipped; at a sequence, the elements are searched in order with `None`
results skipped; scalars yield `None`. -/
theorem c9_search_order_characterization :
    (∀ entries key,
      find_first_key_occurrence (.obj entries) key =
        (levelLookup entries key).getD
          (firstNonNull (entries.map (fun e => find_first_key_occurrence e.2 key)))) ∧
    (∀ xs key,
      find_first_key_occurrence (.arr xs) key =
        firstNonNull (xs.map (fun x => find_first_key_occurrence x key))) ∧
    (∀ key b r s,
      find_first_key_occurrence .null key = .null ∧
      find_first_key_occurrence (.bool b) key = .null ∧
      find_first_key_occurrence (.num r) key = .null ∧
      find_first_key_occurrence (.str s) key = .null) := by
  refine ⟨ffko_obj_levelLookup, ?_, ?_⟩
  · intro xs key
    rw [show find_first_key_occurrence (.arr xs) key = ffko_list xs key from rfl]
    exact ffko_list_eq key xs
  · intro key b r s
    exact ⟨rfl, rfl, rfl, rfl⟩

/-- C10: the null-occurrence asymmetry of the fallback search. A hit at the
current mapping level (exact, or first case-insensitive) is returned even
when the stored value is null; when the level misses, the search recurses
into the values in declared order, and a recursive result of null is
skipped with the search continuing at later siblings, so a nested null
occurrence is never returned and a nested non-null occurrence after a
nested null one is the result. -/
theorem c10_nested_null_skipped_direct_null_returned :
    (∀ entries key v, levelLookup entries key = some v →
      find_first_key_occurrence (.obj entries) key = v) ∧
    (∀ entries key, levelLookup entries key = none →
      find_first_key_occurrence (.obj entries) key = ffko_entries entries key) ∧
    (∀ k v es key, find_first_key_occurrence v key = .null →
      ffko_entries ((k, v) :: es) key = ffko_entries es key) ∧
    (∀ k v es key w, find_first_key_occurrence v key = w → w ≠ .null →
      ffko_entries ((k, v) :: es) key = w) ∧
    (∀ x xs key, find_first_key_occurrence x key = .null →
      ffko_list (x :: xs) key = ffko_list xs key) ∧
    (∀ x xs key w, find_first_key_occurrence x key = w → w ≠ .null →
      ffko_list (x :: xs) key = w) := by
  refine ⟨?_, ?_, ?_, ?_, ?_, ?_⟩
  · intro entries key v h
    rw [ffko_obj_levelLookup, h]
    rfl
  · intro entries key h
    rw [ffko_obj_levelLookup, h, ffko_entries_eq]
    rfl
  · intro k v es key h
    simp [ffko_entries, h]
  · intro k v es key w h hw
    cases w <;> simp [ffko_entries, h] <;> simp at hw
  · intro x xs key h
    simp [ffko_list, h]
  · intro x xs key w h hw
    cases w <;> simp [ffko_list, h] <;> simp at hw

/-- C10 witness: on `{"a": {"x": null}, "b": {"x": 5}}` the nested null
occurrence of `x` is skipped and the later sibling's non-null occurrence is
the result; on `{"x": null, "a": {"x": 5}}` the top-level null entry is
returned directly. -/
theorem c10_witness :
    find_first_key_occurrence
      (.obj [("a", .obj [("x", JVal.null)]), ("b", .obj [("x", .num "5")])]) "x" = .num "5" ∧
    find_first_key_occurrence (.obj [("x", JVal.null), ("a", .obj [("x", .num "5")])]) "x"
      = JVal.null := by
  constructor
  · have h2 := c10_nested_null_skipped_direct_null_returned.2.1
      [("a", .obj [("x", JVal.null)]), ("b", .obj [("x", .num "5")])] "x" (by decide)
    have h3 := c10_nested_null_skipped_direct_null_returned.2.2.1
      "a" (.obj [("x", JVal.null)]) [("b", .obj [("x", .num "5")])] "x" (by decide)
    have h4 := c10_nested_null_skipped_direct_null_returned.2.2.2.1
      "b" (.obj [("x", .num "5")]) [] "x" (.num "5") (by decide) (by decide)
    rw [h2, h3, h4]
  · exact c10_nested_null_skipped_direct_null_returned.1
      [("x", JVal.null), ("a", .obj [("x", .num "5")])] "x" JVal.null (by decide)

/- ===== C5: audit events per resolution ===== -/

/-- A minimal store for the C5 counterexample: one eligibility rule. -/
def c5Create : RuleCreate :=
  { stage := "eligibility",
    reference_example := some (.obj [("Claim", .obj [("ID", .str "C5"), ("MemberID", .str "M5")])]) }

def c5State : SimState := (create_rule c5Create initState).2

def c5Payload : JVal := .obj [("Claim", .obj [("ID", .str "C5"), ("MemberID", .str "M5")])]

/-- C5 counterexample: a matched resolution appends two audit events
(`unique_lookup_attempt` and then `match`), not exactly one. -/
theorem c5_matched_appends_two_events :
    (process_incoming_by_stage_exact "eligibility" c5Payload c5State).2.events.length
      = c5State.events.length + 2 ∧
    (process_incoming_by_stage_exact "eligibility" c5Payload c5State).2.events.map
      (fun ev => ev.event_type) = ["unique_lookup_attempt", "match"] := by decide

/-- The number of audit events one resolution appends before returning (or
raising): one on the not-configured and missing-fields paths; two once a
composite key is built — `unique_lookup_attempt` and then either `match` or
`no_match_index_miss`. -/
def resolutionEventCount (stage : String) (payload : JVal) : Nat :=
  let uf := (dget UNIQUE_FIELDS_PER_STAGE stage).getD []
  if uf.isEmpty then 1
  else if (build_unique_composite_exact payload uf).isNone then 1 else 2

theorem log_event_events_len (actor st et : String) (ps : JVal) (refs : Dict String)
    (s : SimState) :
    (log_event actor st et ps refs s).events.length = s.events.length + 1 := by
  simp [log_event, now_iso]

theorem log_event_rules (actor st et : String) (ps : JVal) (refs : Dict String)
    (s : SimState) : (log_event actor st et ps refs s).rules = s.rules := by
  simp [log_event, now_iso]

theorem log_event_index (actor st et : String) (ps : JVal) (refs : Dict String)
    (s : SimState) : (log_event actor st et ps refs s).unique_index = s.unique_index := by
  simp [log_event, now_iso]

/-- C5 amended: every path of the resolution state machine appends at least
one and at most two audit events — exactly one on the not-configured and
missing-fields paths, exactly two once a composite key is built (matched,
index miss, and even the paths that raise after the `match` event). -/
theorem c5_amended_event_count (stage : String) (payload : JVal) (s : SimState) :
    (process_incoming_by_stage_exact stage payload s).2.events.length
      = s.events.length + resolutionEventCount stage payload := by
  unfold process_incoming_by_stage_exact resolutionEventCount
  by_cases h1 : ((dget UNIQUE_FIELDS_PER_STAGE stage).getD []).isEmpty
  · simp [h1, log_event_events_len, gen_id]
  · simp only [h1, Bool.false_eq_true, if_false]
    cases hb : build_unique_composite_exact payload ((dget UNIQUE_FIELDS_PER_STAGE stage).getD []) with
    | none => simp [hb, log_event_events_len, gen_id]
    | some composite =>
      simp only [hb, Option.isNone_some, Bool.false_eq_true, if_false]
      split
      · split
        · simp [log_event_events_len, gen_id]
        · split <;> simp [log_event_events_len, gen_id]
      · simp [log_event_events_len, gen_id]


theorem rebuild_step_rules (stage : String) (uf : List String) (acc : SimState)
    (e : String × Rule) : (rebuild_step stage uf acc e).rules = acc.rules := by
  unfold rebuild_step
  split
  · rfl
  · split
    · rfl
    · split
      · rfl
      · dsimp only
        split <;> simp [log_event, now_iso]

theorem foldl_rebuild_rules (stage : String) (uf : List String) :
    ∀ (l : Dict Rule) (acc : SimState),
      (l.foldl (rebuild_step stage uf) acc).rules = acc.rules := by
  intro l
  induction l with
  | nil => intro acc; rfl
  | cons e rest ih =>
    intro acc
    rw [List.foldl_cons, ih, rebuild_step_rules]

theorem rebuild_rules_eq (stage : String) (s : SimState) :
    (rebuild_index_for_stage stage s).rules = s.rules := by
  unfold rebuild_index_for_stage
  dsimp only
  split
  · rfl
  · rw [foldl_rebuild_rules]

theorem process_matched (stage : String) (payload : JVal) (s : SimState) (uf : List String)
    (comp rid : String) (r : Rule)
    (huf : dget UNIQUE_FIELDS_PER_STAGE stage = some uf) (hne : uf ≠ [])
    (hb : build_unique_composite_exact payload uf = some comp)
    (hl : dget ((dget s.unique_index stage).getD []) comp = some rid)
    (hrid : rid ≠ "")
    (hr : dget s.rules rid = some r) :
    (process_incoming_by_stage_exact stage payload s).1
      = (matched_result stage r).map (fun w => (w, some comp)) := by
  have hempty : uf.isEmpty = false := by
    cases uf with
    | nil => exact absurd rfl hne
    | cons a l => rfl
  unfold process_incoming_by_stage_exact
  rw [huf]
  simp only [Option.getD_some, hempty, Bool.false_eq_true, if_false, hb, hl]
  have hd : (decide (rid ≠ "")) = true := by simp [hrid]
  rw [hd, if_pos rfl]
  simp only [log_event_rules]
  have hg : (gen_id "REQ" s).2.rules = s.rules := rfl
  rw [hg, hr]
  cases hm : matched_result stage r <;> simp [hm, Except.map]


/-- C2: fail-closed on partial data with a uniform unmatched shape. If any
configured field of a configured stage resolves to null/absent/empty after
trimming, the resolution returns the fixed unmatched body with no composite
key; and an index miss on a well-formed key returns the identical body
(with the composite surfaced only out-of-band). -/
theorem c2_fail_closed_and_uniform_unmatched :
    (∀ stage uf payload s, dget UNIQUE_FIELDS_PER_STAGE stage = some uf → uf ≠ [] →
      (∃ fn ∈ uf, normalize_value_exact (resolveUniqueField payload fn) = none) →
      (process_incoming_by_stage_exact stage payload s).1 = .ok (unmatchedBody, none)) ∧
    (∀ stage uf payload s comp, dget UNIQUE_FIELDS_PER_STAGE stage = some uf → uf ≠ [] →
      build_unique_composite_exact payload uf = some comp →
      dget ((dget s.unique_index stage).getD []) comp = none →
      (process_incoming_by_stage_exact stage payload s).1 = .ok (unmatchedBody, some comp)) := by
  constructor
  · intro stage uf payload s huf hne hex
    have hbuild : build_unique_composite_exact payload uf = none := by
      unfold build_unique_composite_exact compositeParts
      have hm : uf.mapM (compositePart payload) = none := by
        apply mapM_eq_none_of_mem
        rcases hex with ⟨fn, hmem, hnone⟩
        refine ⟨fn, hmem, ?_⟩
        unfold compositePart
        rw [hnone]
        rfl
      rw [hm]
      rfl
    have hempty : uf.isEmpty = false := by
      cases uf with
      | nil => exact absurd rfl hne
      | cons a l => rfl
    unfold process_incoming_by_stage_exact
    rw [huf]
    simp only [Option.getD_some, hempty, Bool.false_eq_true, if_false, hbuild]
  · intro stage uf payload s comp huf hne hb hmiss
    have hempty : uf.isEmpty = false := by
      cases uf with
      | nil => exact absurd rfl hne
      | cons a l => rfl
    unfold process_incoming_by_stage_exact
    rw [huf]
    simp only [Option.getD_some, hempty, Bool.false_eq_true, if_false, hb, hmiss]

/-- C2 witness: on stage `eligibility` a document missing `Claim.MemberID`
is unmatched with no composite; a well-formed but unknown key on the empty
store is an index miss with the identical body. -/
theorem c2_witness :
    (process_incoming_by_stage_exact "eligibility"
        (.obj [("Claim", .obj [("ID", .str "x")])]) initState).1
      = .ok (unmatchedBody, none) ∧
    (process_incoming_by_stage_exact "eligibility"
        (.obj [("Claim", .obj [("ID", .str "zz"), ("MemberID", .str "mm")])]) initState).1
      = .ok (unmatchedBody, some "ID=zz||MemberID=mm") :=
  ⟨c2_fail_closed_and_uniform_unmatched.1 "eligibility" ["Claim.ID", "Claim.MemberID"] _ initState
      (by decide) (by decide) ⟨"Claim.MemberID", by decide, by decide⟩,
   c2_fail_closed_and_uniform_unmatched.2 "eligibility" ["Claim.ID", "Claim.MemberID"] _ initState
      "ID=zz||MemberID=mm" (by decide) (by decide) (by decide) (by decide)⟩


/-- C3: collision last-wins. For two rules A then B of the same stage whose
reference examples build the same composite key: after a full stage rebuild
over Rule Store iteration order the index maps the key to B, an
`index_collision` audit event names both rule ids, and resolving that
composite key yields the matched response computed from B; after
`indexSingleRule` of B over an index holding A, the key likewise maps to B
with an `index_collision_single` event naming both ids. Both mutations
return normally (they are total state transformers; no error is raised to
the caller). -/
theorem c3_collision_last_wins :
    (∀ (s0 : SimState) (A B : Rule) (st : String) (uf : List String) (c : String) (p : JVal),
      dget UNIQUE_FIELDS_PER_STAGE st = some uf → uf ≠ [] →
      A.stage = st → B.stage = st → A.id ≠ B.id → B.id ≠ "" →
      build_unique_composite_exact (refExOrEmpty A.reference_example) uf = some c →
      build_unique_composite_exact (refExOrEmpty B.reference_example) uf = some c →
      c ≠ "" →
      s0.rules = [(A.id, A), (B.id, B)] →
      build_unique_composite_exact p uf = some c →
      dget ((dget (rebuild_index_for_stage st s0).unique_index st).getD []) c = some B.id ∧
      (∃ ev ∈ (rebuild_index_for_stage st s0).events,
        ev.event_type = "index_collision" ∧
        ev.payload_summary
          = .obj [("composite", .str c), ("old_rule", .str A.id), ("new_rule", .str B.id)] ∧
        ev.reference_ids = [("rule_id_old", A.id), ("rule_id_new", B.id)]) ∧
      (process_incoming_by_stage_exact st p (rebuild_index_for_stage st s0)).1
        = (matched_result st B).map (fun w => (w, some c))) ∧
    (∀ (s2 : SimState) (A B : Rule) (st : String) (uf : List String) (c : String),
      dget UNIQUE_FIELDS_PER_STAGE st = some uf → uf ≠ [] →
      B.stage = st →
      build_unique_composite_exact (refExOrEmpty B.reference_example) uf = some c →
      c ≠ "" →
      dget ((dget s2.unique_index st).getD []) c = some A.id →
      dget ((dget (index_rule_if_unique_fields B s2).unique_index st).getD []) c = some B.id ∧
      (∃ ev ∈ (index_rule_if_unique_fields B s2).events,
        ev.event_type = "index_collision_single" ∧
        ev.payload_summary
          = .obj [("composite", .str c), ("existing", .str A.id), ("new", .str B.id)] ∧
        ev.reference_ids = [("rule_id_existing", A.id), ("rule_id_new", B.id)])) := by
  constructor
  · intro s0 A B st uf c p huf hne hA hB hAB hBne hcA hcB hcne hrules hp
    have hempty : uf.isEmpty = false := by
      cases uf with
      | nil => exact absurd rfl hne
      | cons a l => rfl
    have h1 : dset ([] : Dict String) c A.id = [(c, A.id)] := rfl
    have h2 : dget [(c, A.id)] c = some A.id := by
      rw [dget_cons]
      simp
    have h3 : dset [(c, A.id)] c B.id = [(c, B.id)] := by
      simp [dset, dmem]
    have hidx : dget ((dget (rebuild_index_for_stage st s0).unique_index st).getD []) c
        = some B.id := by
      unfold rebuild_index_for_stage
      rw [hrules, huf]
      simp only [Option.getD_some, hempty, Bool.false_eq_true, if_false, List.foldl_cons,
        List.foldl_nil]
      unfold rebuild_step
      simp only [hA, hB, hcA, hcB, ne_eq, not_true_eq_false, if_false]
      simp only [if_neg hcne]
      simp only [dget_nil, dget_dset_self, Option.getD_some, h1, h2, h3, log_event_index]
      rw [dget_cons]
      simp
    have hev : ∃ ev ∈ (rebuild_index_for_stage st s0).events,
        ev.event_type = "index_collision" ∧
        ev.payload_summary
          = .obj [("composite", .str c), ("old_rule", .str A.id), ("new_rule", .str B.id)] ∧
        ev.reference_ids = [("rule_id_old", A.id), ("rule_id_new", B.id)] := by
      unfold rebuild_index_for_stage
      rw [hrules, huf]
      simp only [Option.getD_some, hempty, Bool.false_eq_true, if_false, List.foldl_cons,
        List.foldl_nil]
      unfold rebuild_step
      simp only [hA, hB, hcA, hcB, ne_eq, not_true_eq_false, if_false]
      simp only [if_neg hcne]
      simp only [dget_nil, dget_dset_self, Option.getD_some, h1, h2, h3, log_event_index]
      simp only [log_event, now_iso]
      refine ⟨_, List.mem_append_right _ (List.mem_singleton_self _), rfl, rfl, rfl⟩
    refine ⟨hidx, hev, ?_⟩
    apply process_matched st p _ uf c B.id B huf hne hp hidx hBne
    rw [rebuild_rules_eq, hrules, dget_cons]
    simp [hAB, dget_cons]
  · intro s2 A B st uf c huf hne hB hcB hcne hold
    have hempty : uf.isEmpty = false := by
      cases uf with
      | nil => exact absurd rfl hne
      | cons a l => rfl
    unfold index_rule_if_unique_fields
    rw [hB, huf]
    simp only [Option.getD_some, hempty, Bool.false_eq_true, if_false, hcB]
    simp only [if_neg hcne]
    simp only [hold]
    have h3 : dget (dset ((dget s2.unique_index st).getD []) c B.id) c = some B.id :=
      dget_dset_self _ _ _
    constructor
    · simp only [log_event_index, dget_dset_self, Option.getD_some, h3]
    · simp only [log_event, now_iso]
      refine ⟨_, List.mem_append_right _ (List.mem_singleton_self _), rfl, rfl, rfl⟩

/-- Two concrete denial-management rules whose reference examples build the
same composite key `ClaimRefID=K1`. -/
def c3RuleA : Rule :=
  { id := "RULE-A", stage := "denial_management", match_criteria := .obj [],
    outcome := .obj [("denial_management_status", .str "A_OUT")], priority := 100,
    reference_example := .obj [("Denial", .obj [("ClaimRefID", .str "K1")])],
    created_at := "T0Z" }

def c3RuleB : Rule :=
  { id := "RULE-B", stage := "denial_management", match_criteria := .obj [],
    outcome := .obj [("denial_management_status", .str "B_OUT")], priority := 100,
    reference_example := .obj [("Denial", .obj [("ClaimRefID", .str "K1")])],
    created_at := "T0Z" }

def c3State : SimState :=
  { rules := [("RULE-A", c3RuleA), ("RULE-B", c3RuleB)], events := [],
    unique_index := [], counter := 0 }

/-- C3 witness: with the two colliding rules above installed A then B, a
stage rebuild maps the shared key to `RULE-B` and resolving that key
returns the matched result computed from rule B. -/
theorem c3_witness :
    dget ((dget (rebuild_index_for_stage "denial_management" c3State).unique_index
        "denial_management").getD []) "ClaimRefID=K1" = some "RULE-B" ∧
    (process_incoming_by_stage_exact "denial_management"
        (.obj [("Denial", .obj [("ClaimRefID", .str "K1")])])
        (rebuild_index_for_stage "denial_management" c3State)).1
      = (matched_result "denial_management" c3RuleB).map (fun w => (w, some "ClaimRefID=K1")) := by
  have h := c3_collision_last_wins.1 c3State c3RuleA c3RuleB "denial_management"
    ["Denial.ClaimRefID"] "ClaimRefID=K1"
    (.obj [("Denial", .obj [("ClaimRefID", .str "K1")])])
    (by decide) (by decide) rfl rfl (by decide) (by decide)
    (by decide) (by decide) (by decide) rfl (by decide)
  exact ⟨h.1, h.2.2⟩


theorem dget_merge (pinfo : Dict JVal) :
    ∀ (po : List (String × JVal)) (k : String),
      dget (mergePatientInto po pinfo) k
        = match dget po k with
          | some v => some v
          | none => dget pinfo k := by
  induction pinfo with
  | nil =>
    intro po k
    have h0 : mergePatientInto po [] = po := rfl
    rw [h0]
    cases hd : dget po k <;> simp [hd, dget_nil]
  | cons kv rest ih =>
    intro po k
    rcases kv with ⟨k1, v1⟩
    have hstep : mergePatientInto po ((k1, v1) :: rest)
        = mergePatientInto (if dmem po k1 then po else po ++ [(k1, v1)]) rest := by
      unfold mergePatientInto
      rw [List.foldl_cons]
    rw [hstep]
    by_cases hm : dmem po k1
    · rw [if_pos hm, ih]
      by_cases hk : k1 = k
      · subst hk
        have hs : (dget po k1).isSome = true := by rw [← dmem_eq_isSome]; exact hm
        cases hd : dget po k1
        · rw [hd] at hs; simp at hs
        · simp
      · cases hd : dget po k <;> simp [dget_cons, hk]
    · rw [if_neg hm, ih]
      have hb : dmem po k1 = false := by simpa using hm
      by_cases hk : k1 = k
      · subst hk
        rw [dget_append, dget_eq_none_of_not_dmem hb]
        simp [dget_cons]
      · rw [dget_append]
        have h1 : dget [(k1, v1)] k = none := by
          rw [dget_cons, if_neg hk]
          rfl
        rw [h1]
        cases hd : dget po k <;> simp [dget_cons, hk]

/-- C8: patient-field non-clobber on matched resolutions. -/
theorem c8_patient_nonclobber :
    (∀ (stage : String) (r : Rule), STAGES_WITH_PATIENT_INFO.contains stage = false →
      matched_result stage r
        = .ok (JVal.obj [("matched", .bool true), ("stage", .str stage),
            ("result", r.outcome),
            ("summary", .str (interpret_summary r.outcome stage))])) ∧
    (∀ (stage : String) (r : Rule), STAGES_WITH_PATIENT_INFO.contains stage = true →
      extract_patient_info r.reference_example = [] →
      matched_result stage r
        = .ok (JVal.obj [("matched", .bool true), ("stage", .str stage),
            ("result", r.outcome),
            ("summary", .str (interpret_summary r.outcome stage))])) ∧
    (∀ (stage : String) (r : Rule) (oes po : List (String × JVal)),
      STAGES_WITH_PATIENT_INFO.contains stage = true →
      r.outcome = .obj oes →
      dget oes "patient" = some (.obj po) →
      extract_patient_info r.reference_example ≠ [] →
      (matched_result stage r
        = .ok (JVal.obj [("matched", .bool true), ("stage", .str stage),
            ("result", .obj (dset oes "patient"
              (.obj (mergePatientInto po (extract_patient_info r.reference_example))))),
            ("summary", .str (interpret_summary
              (.obj (dset oes "patient"
                (.obj (mergePatientInto po (extract_patient_info r.reference_example)))))
              stage))])) ∧
      (∀ k v, dget po k = some v →
        dget (mergePatientInto po (extract_patient_info r.reference_example)) k = some v) ∧
      (∀ k, dget po k = none →
        dget (mergePatientInto po (extract_patient_info r.reference_example)) k
          = dget (extract_patient_info r.reference_example) k)) := by
  refine ⟨?_, ?_, ?_⟩
  · intro stage r h
    unfold matched_result
    simp [h, Except.map]
    have hm : stage ∉ STAGES_WITH_PATIENT_INFO := by simpa using h
    rw [if_neg hm]
  · intro stage r h hpi
    unfold matched_result
    simp [h, hpi, Except.map]
  · intro stage r oes po h houtcome hpatient hpi
    have hempty : (extract_patient_info r.reference_example).isEmpty = false := by
      cases hp : extract_patient_info r.reference_example
      · exact absurd hp hpi
      · rfl
    refine ⟨?_, ?_, ?_⟩
    · unfold matched_result apply_patient_augmentation
      rw [houtcome]
      simp [h, hempty, hpatient, Except.map]
      have hm : stage ∈ STAGES_WITH_PATIENT_INFO := by simpa using h
      rw [if_pos hm]
    · intro k v hv
      rw [dget_merge, hv]
    · intro k hv
      rw [dget_merge, hv]

/-- A PHI-stage rule whose outcome already defines `patient.name` and whose
reference example carries a full `Patient` node. -/
def c8Rule : Rule :=
  { id := "RULE-C8", stage := "eligibility", match_criteria := .obj [],
    outcome := .obj [("outcome_code", .str "OK"),
      ("patient", .obj [("name", .str "KeepMe")])],
    priority := 100,
    reference_example := .obj [("Claim", .obj [("ID", .str "X"), ("MemberID", .str "M")]),
      ("Patient", .obj [("PatientID", .str "PID-1"), ("Name", .str "Else"),
        ("DOB", .str "1990-01-01")])],
    created_at := "T0Z" }

/-- C8 witness: on the rule above, augmentation never overwrites the
already-defined `patient.name` (it stays `KeepMe`) and fills the missing
`dob` from the reference example's extracted patient info. -/
theorem c8_witness :
    dget (mergePatientInto [("name", JVal.str "KeepMe")]
        (extract_patient_info c8Rule.reference_example)) "name" = some (.str "KeepMe") ∧
    dget (mergePatientInto [("name", JVal.str "KeepMe")]
        (extract_patient_info c8Rule.reference_example)) "dob"
      = dget (extract_patient_info c8Rule.reference_example) "dob" := by
  have h := c8_patient_nonclobber.2.2 "eligibility" c8Rule
    [("outcome_code", .str "OK"), ("patient", .obj [("name", .str "KeepMe")])]
    [("name", JVal.str "KeepMe")]
    (by decide) rfl (by decide) (by decide)
  exact ⟨h.2.1 "name" (.str "KeepMe") (by decide), h.2.2 "dob" (by decide)⟩


theorem hexDigit_ne_pipe (n : Nat) : hexDigit n ≠ '|' := by
  unfold hexDigit
  unfold List.getD
  cases h : "0123456789abcdef".data[n]? with
  | none => simp [h]
  | some c =>
    have hc : c ∈ "0123456789abcdef".data := by
      have h2 := List.getElem?_eq_some_iff.mp h
      rcases h2 with ⟨hlt, heq⟩
      rw [← heq]
      exact List.getElem_mem hlt
    have hall : ∀ x ∈ "0123456789abcdef".data, x ≠ '|' := by decide
    simp [h]
    exact hall c hc

theorem uEscape_no_pipe (n : Nat) : '|' ∉ (uEscape n).data := by
  intro hmem
  have hd : (uEscape n).data
      = ['\\', 'u', hexDigit ((n / 4096) % 16), hexDigit ((n / 256) % 16),
         hexDigit ((n / 16) % 16), hexDigit ((n / 1) % 16)] := rfl
  rw [hd] at hmem
  simp only [List.mem_cons, List.not_mem_nil, or_false] at hmem
  rcases hmem with h | h | h | h | h | h
  · exact absurd h (by decide)
  · exact absurd h (by decide)
  · exact hexDigit_ne_pipe _ h.symm
  · exact hexDigit_ne_pipe _ h.symm
  · exact hexDigit_ne_pipe _ h.symm
  · exact hexDigit_ne_pipe _ h.symm

theorem jsonEscapeChar_no_pipe (acc : String) (c : Char)
    (hacc : '|' ∉ acc.data) (hc : c ≠ '|') : '|' ∉ (jsonEscapeChar acc c).data := by
  unfold jsonEscapeChar
  repeat' split
  · intro hx
    exact hacc (by simpa [String.data_append] using hx)
  · intro hx
    exact hacc (by simpa [String.data_append] using hx)
  · intro hx
    exact hacc (by simpa [String.data_append] using hx)
  · intro hx
    exact hacc (by simpa [String.data_append] using hx)
  · intro hx
    exact hacc (by simpa [String.data_append] using hx)
  · intro hx
    exact hacc (by simpa [String.data_append] using hx)
  · intro hx
    exact hacc (by simpa [String.data_append] using hx)
  · intro hx
    rcases List.mem_append.mp (by simpa [String.data_append] using hx) with h | h
    · exact hacc h
    · exact uEscape_no_pipe _ h
  · intro hx
    rcases (by simpa [String.data_push] using hx : '|' ∈ acc.data ∨ '|' = c) with h | h
    · exact hacc h
    · exact hc h.symm

theorem jsonEscape_no_pipe (s : String) (hs : '|' ∉ s.data) :
    '|' ∉ (jsonEscape s).data := by
  unfold jsonEscape
  have haux : ∀ (l : List Char) (acc : String), '|' ∉ acc.data → (∀ c ∈ l, c ≠ '|') →
      '|' ∉ (l.foldl jsonEscapeChar acc).data := by
    intro l
    induction l with
    | nil => intro acc hacc _; exact hacc
    | cons c rest ih =>
      intro acc hacc hl
      rw [List.foldl_cons]
      exact ih _ (jsonEscapeChar_no_pipe acc c hacc (hl c (List.mem_cons_self c rest)))
        (fun x hx => hl x (List.mem_cons_of_mem c hx))
  exact haux s.data "" (by decide) (fun c hcmem heq => hs (heq ▸ hcmem))

mutual
/-- No `|` character occurs anywhere in the value: not in string contents,
number reprs, or (for containers) any key or nested value. -/
def noPipeJ : JVal → Bool
  | .null => true
  | .bool _ => true
  | .num r => !containsChar r '|'
  | .str s => !containsChar s '|'
  | .arr xs => noPipeJList xs
  | .obj es => noPipeJEntries es

def noPipeJList : List JVal → Bool
  | [] => true
  | x :: xs => noPipeJ x && noPipeJList xs

def noPipeJEntries : List (String × JVal) → Bool
  | [] => true
  | (k, v) :: es => (!containsChar k '|') && noPipeJ v && noPipeJEntries es
end

theorem containsChar_false_not_mem {s : String} {c : Char}
    (h : containsChar s c = false) : c ∉ s.data := by
  intro hmem
  unfold containsChar at h
  simp [List.contains_iff_exists_mem_beq] at h
  exact h hmem

theorem joinWith_no_pipe (sep : String) (hsep : '|' ∉ sep.data) :
    ∀ (l : List String), (∀ p ∈ l, '|' ∉ p.data) → '|' ∉ (joinWith sep l).data := by
  intro l
  induction l with
  | nil =>
    intro _ h
    simp [joinWith] at h
  | cons x xs ih =>
    intro hall
    cases xs with
    | nil => exact hall x (List.mem_cons_self x [])
    | cons y ys =>
      intro hmem
      rw [show joinWith sep (x :: y :: ys) = x ++ sep ++ joinWith sep (y :: ys) from rfl] at hmem
      rcases (by simpa [String.data_append] using hmem :
          '|' ∈ x.data ∨ '|' ∈ sep.data ∨ '|' ∈ (joinWith sep (y :: ys)).data) with h | h | h
      · exact hall x (List.mem_cons_self x _) h
      · exact hsep h
      · exact ih (fun p hp => hall p (List.mem_cons_of_mem x hp)) h

theorem mem_insertByKey (e x : String × String) :
    ∀ l, x ∈ insertByKey e l → x = e ∨ x ∈ l := by
  intro l
  induction l with
  | nil =>
    intro h
    simp [insertByKey] at h
    exact Or.inl h
  | cons y ys ih =>
    intro h
    unfold insertByKey at h
    split at h
    · rcases List.mem_cons.mp h with h1 | h1
      · exact Or.inl h1
      · exact Or.inr h1
    · rcases List.mem_cons.mp h with h1 | h1
      · exact Or.inr (h1 ▸ List.mem_cons_self y ys)
      · rcases ih h1 with h2 | h2
        · exact Or.inl h2
        · exact Or.inr (List.mem_cons_of_mem y h2)

theorem mem_sortRenderedByKey (x : String × String) :
    ∀ l, x ∈ sortRenderedByKey l → x ∈ l := by
  intro l
  induction l with
  | nil => intro h; exact absurd h (by simp [sortRenderedByKey])
  | cons y ys ih =>
    intro h
    rw [show sortRenderedByKey (y :: ys) = insertByKey y (sortRenderedByKey ys) from rfl] at h
    rcases mem_insertByKey y x _ h with h1 | h1
    · exact h1 ▸ List.mem_cons_self y ys
    · exact List.mem_cons_of_mem y (ih h1)

theorem joinObjEntries_no_pipe (es : List (String × String))
    (hall : ∀ e ∈ es, '|' ∉ e.1.data ∧ '|' ∉ e.2.data) :
    '|' ∉ (joinObjEntries es).data := by
  unfold joinObjEntries joinComma
  apply joinWith_no_pipe "," (by decide)
  intro p hp
  rcases List.mem_map.mp hp with ⟨e, he, hpe⟩
  rw [← hpe]
  intro hmem
  rcases (by simpa [String.data_append] using hmem :
      ('|' ∈ ("\"" : String).data ∨ '|' ∈ (jsonEscape e.1).data) ∨
        '|' ∈ ("\":" : String).data ∨ '|' ∈ e.2.data) with (h | h) | h | h
  · revert h; decide
  · exact jsonEscape_no_pipe e.1 (hall e he).1 h
  · revert h; decide
  · exact (hall e he).2 h

mutual
theorem jsonDumpsSorted_no_pipe : ∀ (v : JVal), noPipeJ v = true → '|' ∉ (jsonDumpsSorted v).data
  | .null, _ => by decide
  | .bool true, _ => by decide
  | .bool false, _ => by decide
  | .num r, h => by
    have hr : '|' ∉ r.data :=
      containsChar_false_not_mem (by simpa [noPipeJ] using h)
    simpa [jsonDumpsSorted] using hr
  | .str s, h => by
    have hs : '|' ∉ s.data :=
      containsChar_false_not_mem (by simpa [noPipeJ] using h)
    intro hmem
    rcases (by simpa [jsonDumpsSorted, String.data_append] using hmem :
        ('|' ∈ ("\"" : String).data ∨ '|' ∈ (jsonEscape s).data) ∨ '|' ∈ ("\"" : String).data)
      with (h1 | h1) | h1
    · revert h1; decide
    · exact jsonEscape_no_pipe s hs h1
    · revert h1; decide
  | .arr xs, h => by
    intro hmem
    rcases (by simpa [jsonDumpsSorted, String.data_append] using hmem :
        ('|' ∈ ("[" : String).data ∨ '|' ∈ (joinComma (jsonRenderList xs)).data) ∨
          '|' ∈ ("]" : String).data) with (h1 | h1) | h1
    · revert h1; decide
    · have hl := jsonRenderList_no_pipe xs (by simpa [noPipeJ] using h)
      exact joinWith_no_pipe "," (by decide) _ hl (by simpa [joinComma] using h1)
    · revert h1; decide
  | .obj es, h => by
    intro hmem
    rcases (by simpa [jsonDumpsSorted, String.data_append] using hmem :
        ('|' ∈ ("\x7b" : String).data ∨
          '|' ∈ (joinObjEntries (sortRenderedByKey (jsonRenderEntries es))).data) ∨
          '|' ∈ ("\x7d" : String).data) with (h1 | h1) | h1
    · revert h1; decide
    · have he := jsonRenderEntries_no_pipe es (by simpa [noPipeJ] using h)
      exact joinObjEntries_no_pipe _
        (fun e hems => he e (mem_sortRenderedByKey e _ hems)) h1
    · revert h1; decide

theorem jsonRenderList_no_pipe :
    ∀ (xs : List JVal), noPipeJList xs = true → ∀ s ∈ jsonRenderList xs, '|' ∉ s.data
  | [], _ => by intro s hs; cases hs
  | x :: xs, h => by
    have hx : noPipeJ x = true := by
      have := h
      unfold noPipeJList at this
      exact (Bool.and_eq_true_iff.mp this).1
    have hxs : noPipeJList xs = true := by
      have := h
      unfold noPipeJList at this
      exact (Bool.and_eq_true_iff.mp this).2
    intro s hs
    rcases List.mem_cons.mp (by simpa [jsonRenderList] using hs) with h1 | h1
    · exact h1 ▸ jsonDumpsSorted_no_pipe x hx
    · exact jsonRenderList_no_pipe xs hxs s h1

theorem jsonRenderEntries_no_pipe :
    ∀ (es : List (String × JVal)), noPipeJEntries es = true →
      ∀ e ∈ jsonRenderEntries es, '|' ∉ e.1.data ∧ '|' ∉ e.2.data
  | [], _ => by intro e he; cases he
  | (k, v) :: es, h => by
    have h1 : (!containsChar k '|') = true ∧ noPipeJ v = true ∧ noPipeJEntries es = true := by
      have := h
      unfold noPipeJEntries at this
      simpa [Bool.and_eq_true, and_assoc] using this
    intro e he
    rcases List.mem_cons.mp (by simpa [jsonRenderEntries] using he) with h2 | h2
    · subst h2
      exact ⟨containsChar_false_not_mem (by simpa using h1.1),
        jsonDumpsSorted_no_pipe v h1.2.1⟩
    · exact jsonRenderEntries_no_pipe es h1.2.2 e h2
end

theorem mem_pyStrip (s : String) (c : Char) (h : c ∈ (pyStrip s).data) : c ∈ s.data := by
  unfold pyStrip at h
  have h1 : c ∈ ((s.data.dropWhile pyWhitespace).reverse.dropWhile pyWhitespace).reverse := h
  rw [List.mem_reverse] at h1
  have h2 := (List.dropWhile_sublist pyWhitespace
    (l := (s.data.dropWhile pyWhitespace).reverse)).mem h1
  rw [List.mem_reverse] at h2
  exact (List.dropWhile_sublist pyWhitespace (l := s.data)).mem h2

theorem normalize_no_pipe (v : JVal) (hv : noPipeJ v = true) (s : String)
    (hn : normalize_value_exact v = some s) : '|' ∉ s.data := by
  cases v with
  | null => exact absurd hn (by simp [normalize_value_exact])
  | obj es =>
    have : s = jsonDumpsSorted (.obj es) := by
      simpa [normalize_value_exact] using hn.symm
    rw [this]
    exact jsonDumpsSorted_no_pipe _ hv
  | arr xs =>
    have : s = jsonDumpsSorted (.arr xs) := by
      simpa [normalize_value_exact] using hn.symm
    rw [this]
    exact jsonDumpsSorted_no_pipe _ hv
  | bool b =>
    have hb : normalize_value_exact (.bool b)
        = (if pyStrip (pyStr (.bool b)) = "" then none
           else some (pyStrip (pyStr (.bool b)))) := rfl
    rw [hb] at hn
    split at hn
    · exact absurd hn (by simp)
    · injection hn with h
      rw [← h]
      cases b <;> decide
  | num r =>
    have hb : normalize_value_exact (.num r)
        = (if pyStrip (pyStr (.num r)) = "" then none
           else some (pyStrip (pyStr (.num r)))) := rfl
    rw [hb] at hn
    split at hn
    · exact absurd hn (by simp)
    · injection hn with h
      rw [← h]
      intro hmem
      have hr : '|' ∈ r.data := mem_pyStrip _ _ (by simpa [pyStr] using hmem)
      exact containsChar_false_not_mem (by simpa [noPipeJ] using hv) hr
  | str t =>
    have hb : normalize_value_exact (.str t)
        = (if pyStrip (pyStr (.str t)) = "" then none
           else some (pyStrip (pyStr (.str t)))) := rfl
    rw [hb] at hn
    split at hn
    · exact absurd hn (by simp)
    · injection hn with h
      rw [← h]
      intro hmem
      have ht : '|' ∈ t.data := mem_pyStrip _ _ (by simpa [pyStr] using hmem)
      exact containsChar_false_not_mem (by simpa [noPipeJ] using hv) ht

theorem takeWhile_nopipe_append (l : List Char) :
    ∀ (a : List Char), (∀ c ∈ a, c ≠ '|') →
      List.takeWhile (fun c => !(c = '|')) (a ++ '|' :: l) = a := by
  intro a
  induction a with
  | nil =>
    intro _
    simp [List.takeWhile_cons]
  | cons c rest ih =>
    intro ha
    have hc : c ≠ '|' := ha c (List.mem_cons_self c rest)
    have hd : (decide (c = '|')) = false := decide_eq_false hc
    rw [List.cons_append, List.takeWhile_cons, hd]
    simp only [Bool.not_false, if_true]
    rw [ih (fun x hx => ha x (List.mem_cons_of_mem c hx))]

theorem joinWith_pipes_inj :
    ∀ (p1 : List String), p1 ≠ [] → ∀ (p2 : List String), p2 ≠ [] →
      (∀ p ∈ p1, '|' ∉ p.data) → (∀ p ∈ p2, '|' ∉ p.data) →
      joinWith "||" p1 = joinWith "||" p2 → p1 = p2 := by
  intro p1
  induction p1 with
  | nil => intro h; exact absurd rfl h
  | cons x xs ih =>
    intro _ p2 hp2 h1 h2 heq
    cases p2 with
    | nil => exact absurd rfl hp2
    | cons y ys =>
      have hx : '|' ∉ x.data := h1 x (List.mem_cons_self x xs)
      have hy : '|' ∉ y.data := h2 y (List.mem_cons_self y ys)
      cases xs with
      | nil =>
        cases ys with
        | nil =>
          have : x = y := heq
          rw [this]
        | cons y2 ys2 =>
          exfalso
          apply hx
          have hx2 : x = y ++ "||" ++ joinWith "||" (y2 :: ys2) := heq
          rw [hx2]
          simp [String.data_append]
      | cons x2 xs2 =>
        cases ys with
        | nil =>
          exfalso
          apply hy
          have hy2 : y = x ++ "||" ++ joinWith "||" (x2 :: xs2) := heq.symm
          rw [hy2]
          simp [String.data_append]
        | cons y2 ys2 =>
          have hallx : ∀ c ∈ x.data, c ≠ '|' := fun c hc he => hx (he ▸ hc)
          have hally : ∀ c ∈ y.data, c ≠ '|' := fun c hc he => hy (he ▸ hc)
          have hdata : x.data ++ ('|' :: '|' :: (joinWith "||" (x2 :: xs2)).data)
              = y.data ++ ('|' :: '|' :: (joinWith "||" (y2 :: ys2)).data) := by
            have he2 : x ++ "||" ++ joinWith "||" (x2 :: xs2)
                = y ++ "||" ++ joinWith "||" (y2 :: ys2) := heq
            have hc := congrArg String.data he2
            simpa [String.data_append, List.append_assoc] using hc
          have hxy : x.data = y.data := by
            have hq := congrArg (List.takeWhile (fun c => !(c = '|'))) hdata
            rwa [takeWhile_nopipe_append _ _ hallx, takeWhile_nopipe_append _ _ hally] at hq
          have hxy2 : x = y := by
            have hm := congrArg String.mk hxy
            simpa using hm
          have htail : joinWith "||" (x2 :: xs2) = joinWith "||" (y2 :: ys2) := by
            rw [hxy] at hdata
            have hc2 := List.append_cancel_left hdata
            injection hc2 with _ hc3
            injection hc3 with _ hc4
            have hm := congrArg String.mk hc4
            simpa using hm
          rw [hxy2, ih (by simp) (y2 :: ys2) (by simp)
            (fun p hp => h1 p (List.mem_cons_of_mem x hp))
            (fun p hp => h2 p (List.mem_cons_of_mem y hp)) htail]

/-- C6 amended: the composite key joins the per-field
`ShortName=NormalizedValue` parts with the fixed two-character delimiter
`||`; however, value normalization can produce the delimiter's character
`|` (see the counterexample), so the unambiguous-parsing guarantee is
conditional: for fields and values free of `|`, each part is free of the
delimiter's character and the joined key determines the part list
uniquely. -/
theorem c6_amended_delimiter_conditional :
    (∀ (obj : JVal) (fns : List String) (parts : List String),
      compositeParts obj fns = some parts →
      build_unique_composite_exact obj fns = some (joinWith "||" parts)) ∧
    (∀ (v : JVal) (s : String), noPipeJ v = true → normalize_value_exact v = some s →
      '|' ∉ s.data) ∧
    (∀ (obj : JVal) (fn : String) (part : String),
      '|' ∉ (shortNameOf fn).data → noPipeJ (resolveUniqueField obj fn) = true →
      compositePart obj fn = some part → '|' ∉ part.data) ∧
    (∀ (p1 p2 : List String), p1 ≠ [] → p2 ≠ [] →
      (∀ p ∈ p1, '|' ∉ p.data) → (∀ p ∈ p2, '|' ∉ p.data) →
      joinWith "||" p1 = joinWith "||" p2 → p1 = p2) := by
  refine ⟨?_, ?_, ?_, ?_⟩
  · intro obj fns parts h
    unfold build_unique_composite_exact
    rw [h]
    rfl
  · intro v s hv hn
    exact normalize_no_pipe v hv s hn
  · intro obj fn part hshort hval hcp
    unfold compositePart at hcp
    cases hnorm : normalize_value_exact (resolveUniqueField obj fn) with
    | none => rw [hnorm] at hcp; exact absurd hcp (by simp)
    | some n =>
      rw [hnorm] at hcp
      have hpart : part = shortNameOf fn ++ "=" ++ n := by
        injection hcp with h
        exact h.symm
      rw [hpart]
      intro hmem
      rcases (by simpa [String.data_append] using hmem :
          ('|' ∈ (shortNameOf fn).data ∨ '|' ∈ ("=" : String).data) ∨ '|' ∈ n.data)
        with (h1 | h1) | h1
      · exact hshort h1
      · revert h1; decide
      · exact normalize_no_pipe _ hval n hnorm h1
  · intro p1 p2 h1 h2 h3 h4 h5
    exact joinWith_pipes_inj p1 h1 p2 h2 h3 h4 h5

/-- C6 amended witness: a concrete well-formed document's key is the
`||`-join of its parts, and a pipe-free value normalizes without the
delimiter's character. -/
theorem c6_amended_witness :
    build_unique_composite_exact
        (.obj [("Claim", .obj [("ID", .str "C1"), ("MemberID", .str "M1")])])
        ["Claim.ID", "Claim.MemberID"] = some (joinWith "||" ["ID=C1", "MemberID=M1"]) ∧
    '|' ∉ ("C1" : String).data := by
  constructor
  · exact c6_amended_delimiter_conditional.1 _ _ ["ID=C1", "MemberID=M1"] (by decide)
  · exact c6_amended_delimiter_conditional.2.1 (.str "C1") "C1" (by decide) (by decide)


/-- Heap-model Python value: scalars are immediate, containers live in heap
cells addressed by naturals (Python object identity). -/
inductive PVal where
  | null : PVal
  | bool (b : Bool) : PVal
  | num (r : String) : PVal
  | str (s : String) : PVal
  | ref (a : Nat) : PVal
deriving DecidableEq

/-- A heap cell: a list or a dict object. -/
inductive PCell where
  | arr (elems : List PVal) : PCell
  | obj (entries : List (String × PVal)) : PCell
deriving DecidableEq

/-- The heap: association of addresses to container cells. -/
abbrev Heap := List (Nat × PCell)

def lookupH (h : Heap) (a : Nat) : Option PCell :=
  (h.find? (fun e => e.1 = a)).map (fun e => e.2)

def domH (h : Heap) : List Nat := h.map (fun e => e.1)

/-- In-place mutation of the cell at an address (`obj[k] = v`,
`lst[i] = v`, ... seen from the heap). -/
def setH (h : Heap) (a : Nat) (c : PCell) : Heap :=
  h.map (fun e => if e.1 = a then (a, c) else e)

mutual
/-- Denotation of a heap value as a `JVal` document (fuel-bounded; `none`
on dangling references or insufficient fuel). -/
def viewV : Nat → Heap → PVal → Option JVal
  | _, _, .null => some .null
  | _, _, .bool b => some (.bool b)
  | _, _, .num r => some (.num r)
  | _, _, .str s => some (.str s)
  | 0, _, .ref _ => none
  | f + 1, h, .ref a =>
    match lookupH h a with
    | none => none
    | some c => viewC f h c

def viewC : Nat → Heap → PCell → Option JVal
  | 0, _, _ => none
  | f + 1, h, .arr es => (viewL f h es).map JVal.arr
  | f + 1, h, .obj es => (viewE f h es).map JVal.obj

def viewL : Nat → Heap → List PVal → Option (List JVal)
  | _, _, [] => some []
  | 0, _, _ :: _ => none
  | f + 1, h, x :: xs =>
    match viewV f h x, viewL f h xs with
    | some j, some js => some (j :: js)
    | _, _ => none

def viewE : Nat → Heap → List (String × PVal) → Option (List (String × JVal))
  | _, _, [] => some []
  | 0, _, _ :: _ => none
  | f + 1, h, (k, v) :: es =>
    match viewV f h v, viewE f h es with
    | some j, some js => some ((k, j) :: js)
    | _, _ => none
end

mutual
/-- `copy.deepcopy` at the heap level: recursively copy the reachable
object graph into fresh addresses allocated from `next` upward. -/
def copyV (fuel : Nat) (h : Heap) (next : Nat) (v : PVal) : Option (PVal × Heap × Nat) :=
  match fuel, v with
  | _, .null => some (.null, h, next)
  | _, .bool b => some (.bool b, h, next)
  | _, .num r => some (.num r, h, next)
  | _, .str s => some (.str s, h, next)
  | 0, .ref _ => none
  | f + 1, .ref a =>
    match lookupH h a with
    | none => none
    | some c =>
      match copyC f h next c with
      | none => none
      | some p => some (.ref p.2.2, p.2.1 ++ [(p.2.2, p.1)], p.2.2 + 1)
termination_by structural fuel

def copyC (fuel : Nat) (h : Heap) (next : Nat) (c : PCell) : Option (PCell × Heap × Nat) :=
  match fuel, c with
  | 0, _ => none
  | f + 1, .arr es => (copyL f h next es).map (fun p => (.arr p.1, p.2.1, p.2.2))
  | f + 1, .obj es => (copyE f h next es).map (fun p => (.obj p.1, p.2.1, p.2.2))
termination_by structural fuel

def copyL (fuel : Nat) (h : Heap) (next : Nat) (l : List PVal) :
    Option (List PVal × Heap × Nat) :=
  match fuel, l with
  | _, [] => some ([], h, next)
  | 0, _ :: _ => none
  | f + 1, x :: xs =>
    match copyV f h next x with
    | none => none
    | some p =>
      match copyL f p.2.1 p.2.2 xs with
      | none => none
      | some q => some (p.1 :: q.1, q.2.1, q.2.2)
termination_by structural fuel

def copyE (fuel : Nat) (h : Heap) (next : Nat) (l : List (String × PVal)) :
    Option (List (String × PVal) × Heap × Nat) :=
  match fuel, l with
  | _, [] => some ([], h, next)
  | 0, _ :: _ => none
  | f + 1, (k, v) :: es =>
    match copyV f h next v with
    | none => none
    | some p =>
      match copyE f p.2.1 p.2.2 es with
      | none => none
      | some q => some ((k, p.1) :: q.1, q.2.1, q.2.2)
termination_by structural fuel
end

mutual
/-- Every address reachable from a value (fuel-bounded exploration). -/
def reachV : Nat → Heap → PVal → List Nat
  | 0, _, .ref a => [a]
  | f + 1, h, .ref a =>
    a :: (match lookupH h a with
      | none => []
      | some c => reachC f h c)
  | _, _, _ => []

def reachC : Nat → Heap → PCell → List Nat
  | 0, _, _ => []
  | f + 1, h, .arr es => reachL f h es
  | f + 1, h, .obj es => reachE f h es

def reachL : Nat → Heap → List PVal → List Nat
  | _, _, [] => []
  | 0, _, _ :: _ => []
  | f + 1, h, x :: xs => reachV f h x ++ reachL f h xs

def reachE : Nat → Heap → List (String × PVal) → List Nat
  | _, _, [] => []
  | 0, _, _ :: _ => []
  | f + 1, h, (_, v) :: es => reachV f h v ++ reachE f h es
end

example : viewV 3 [(0, .obj [("k", .str "x")])] (.ref 0)
    = some (.obj [("k", .str "x")]) := by decide
example : copyV 3 [(0, .obj [("k", .str "x")])] 1 (.ref 0)
    = some (.ref 1, [(0, .obj [("k", .str "x")]), (1, .obj [("k", .str "x")])], 2) := by decide
example : reachV 3 [(0, .obj [("k", .str "x")])] (.ref 0) = [0] := by decide

theorem lookupH_nil (a : Nat) : lookupH [] a = none := rfl

theorem lookupH_cons (p : Nat × PCell) (h : Heap) (a : Nat) :
    lookupH (p :: h) a = if p.1 = a then some p.2 else lookupH h a := by
  unfold lookupH
  rw [List.find?_cons]
  by_cases hp : p.1 = a
  · simp [hp]
  · simp [hp]

theorem domH_cons (p : Nat × PCell) (h : Heap) : domH (p :: h) = p.1 :: domH h := rfl

theorem lookupH_isSome_iff (h : Heap) (a : Nat) :
    (lookupH h a).isSome = true ↔ a ∈ domH h := by
  induction h with
  | nil => simp [lookupH, domH]
  | cons p t ih =>
    rw [lookupH_cons, domH_cons]
    by_cases hp : p.1 = a
    · simp [hp]
    · have hp2 : ¬ a = p.1 := fun hh => hp hh.symm
      simp [hp, hp2, ih]

theorem lookupH_mem_pair (h : Heap) (a : Nat) (c : PCell) (hl : lookupH h a = some c) :
    (a, c) ∈ h := by
  induction h with
  | nil => simp [lookupH] at hl
  | cons p t ih =>
    rw [lookupH_cons] at hl
    by_cases hp : p.1 = a
    · rw [if_pos hp] at hl
      cases Option.some.inj hl
      subst hp
      simp
    · rw [if_neg hp] at hl
      exact List.mem_cons_of_mem _ (ih hl)

theorem lookupH_none_of_not_dom (h : Heap) (a : Nat) (hn : a ∉ domH h) :
    lookupH h a = none := by
  cases hl : lookupH h a with
  | none => rfl
  | some c =>
    exact absurd ((lookupH_isSome_iff h a).mp (by rw [hl]; rfl)) hn

theorem lookupH_append (h tl : Heap) (a : Nat) :
    lookupH (h ++ tl) a = (lookupH h a).or (lookupH tl a) := by
  induction h with
  | nil => simp [lookupH]
  | cons p t ih =>
    rw [List.cons_append, lookupH_cons, lookupH_cons]
    by_cases hp : p.1 = a
    · simp [hp]
    · simp [hp, ih]

theorem lookupH_append_left (h tl : Heap) (a : Nat) (ha : a ∈ domH h) :
    lookupH (h ++ tl) a = lookupH h a := by
  rw [lookupH_append]
  cases hl : lookupH h a with
  | none =>
    exact absurd ((lookupH_isSome_iff h a).mpr ha) (by simp [hl])
  | some c => rfl

theorem lookupH_setH_ne (h : Heap) (a b : Nat) (c : PCell) (hne : a ≠ b) :
    lookupH (setH h b c) a = lookupH h a := by
  induction h with
  | nil => rfl
  | cons p t ih =>
    have hset : setH (p :: t) b c = (if p.1 = b then (b, c) else p) :: setH t b c := rfl
    rw [hset, lookupH_cons, lookupH_cons]
    by_cases hp : p.1 = b
    · have h1 : ¬ (b = a) := fun hba => hne hba.symm
      have hpa : ¬ p.1 = a := by rw [hp]; exact h1
      simp [hp, h1, hpa, ih]
    · by_cases hpa : p.1 = a
      · simp [hp, hpa, hne, ih]
      · simp [hp, hpa, ih]

/-- Views only read the cells of `h`: any heap agreeing with `h` on the
addresses of `h` produces the same views. -/
theorem viewAgree (h h' : Heap) (hag : ∀ a ∈ domH h, lookupH h' a = lookupH h a) :
    ∀ f : Nat,
      (∀ v j, viewV f h v = some j → viewV f h' v = some j) ∧
      (∀ c j, viewC f h c = some j → viewC f h' c = some j) ∧
      (∀ l js, viewL f h l = some js → viewL f h' l = some js) ∧
      (∀ es js, viewE f h es = some js → viewE f h' es = some js) := by
  intro f
  induction f with
  | zero =>
    refine ⟨?_, ?_, ?_, ?_⟩
    · intro v j hv
      cases v with
      | null => exact hv
      | bool b => exact hv
      | num r => exact hv
      | str s => exact hv
      | ref a => exact absurd hv (by simp [viewV])
    · intro c j hv
      exact absurd hv (by simp [viewC])
    · intro l js hv
      cases l with
      | nil => exact hv
      | cons x xs => exact absurd hv (by simp [viewL])
    · intro es js hv
      cases es with
      | nil => exact hv
      | cons e t => exact absurd hv (by simp [viewE])
  | succ f ih =>
    obtain ⟨ihV, ihC, ihL, ihE⟩ := ih
    refine ⟨?_, ?_, ?_, ?_⟩
    · intro v j hv
      cases v with
      | null => exact hv
      | bool b => exact hv
      | num r => exact hv
      | str s => exact hv
      | ref a =>
        simp only [viewV] at hv ⊢
        cases hl : lookupH h a with
        | none => rw [hl] at hv; exact absurd hv (by simp)
        | some c =>
          rw [hl] at hv
          have ha : a ∈ domH h := (lookupH_isSome_iff h a).mp (by rw [hl]; rfl)
          have hl' : lookupH h' a = some c := by rw [hag a ha, hl]
          rw [hl']
          exact ihC c j hv
    · intro c j hv
      cases c with
      | arr es =>
        simp only [viewC] at hv ⊢
        cases hl : viewL f h es with
        | none => rw [hl] at hv; exact absurd hv (by simp)
        | some js =>
          rw [hl] at hv
          rw [ihL es js hl]
          exact hv
      | obj es =>
        simp only [viewC] at hv ⊢
        cases hl : viewE f h es with
        | none => rw [hl] at hv; exact absurd hv (by simp)
        | some js =>
          rw [hl] at hv
          rw [ihE es js hl]
          exact hv
    · intro l js hv
      cases l with
      | nil => exact hv
      | cons x xs =>
        simp only [viewL] at hv ⊢
        cases hx : viewV f h x with
        | none => rw [hx] at hv; exact absurd hv (by simp)
        | some jx =>
          cases hxs : viewL f h xs with
          | none => rw [hx, hxs] at hv; exact absurd hv (by simp)
          | some jxs =>
            rw [hx, hxs] at hv
            rw [ihV x jx hx, ihL xs jxs hxs]
            exact hv
    · intro es js hv
      cases es with
      | nil => exact hv
      | cons e t =>
        obtain ⟨k, v⟩ := e
        simp only [viewE] at hv ⊢
        cases hx : viewV f h v with
        | none => rw [hx] at hv; exact absurd hv (by simp)
        | some jx =>
          cases hxs : viewE f h t with
          | none => rw [hx, hxs] at hv; exact absurd hv (by simp)
          | some jxs =>
            rw [hx, hxs] at hv
            rw [ihV v jx hx, ihE t jxs hxs]
            exact hv

/-- Top-level reference addresses of a value. -/
def valAddrs : PVal → List Nat
  | .ref a => [a]
  | _ => []

/-- Top-level reference addresses stored inside a cell. -/
def cellAddrs : PCell → List Nat
  | .arr es => (es.map valAddrs).join
  | .obj es => (es.map (fun e => valAddrs e.2)).join

/-- The copier only extends the heap: the new heap is the old one plus a
tail of cells at fresh addresses in `[next, n2)`, whose stored references
also point into `[next, n2)`. -/
def freshExt (h : Heap) (next : Nat) (h2 : Heap) (n2 : Nat) : Prop :=
  (∃ tl, h2 = h ++ tl ∧ ∀ q ∈ tl, next ≤ q.1 ∧ q.1 < n2 ∧
    ∀ b ∈ cellAddrs q.2, next ≤ b ∧ b < n2) ∧ next ≤ n2

theorem freshExt_refl (h : Heap) (next : Nat) : freshExt h next h next :=
  ⟨⟨[], (List.append_nil h).symm, by simp⟩, Nat.le_refl _⟩

theorem freshExt_trans {h : Heap} {n1 : Nat} {h2 : Heap} {n2 : Nat} {h3 : Heap} {n3 : Nat}
    (e1 : freshExt h n1 h2 n2) (e2 : freshExt h2 n2 h3 n3) : freshExt h n1 h3 n3 := by
  obtain ⟨⟨tl1, heq1, hb1⟩, hn1⟩ := e1
  obtain ⟨⟨tl2, heq2, hb2⟩, hn2⟩ := e2
  refine ⟨⟨tl1 ++ tl2, by rw [heq2, heq1, List.append_assoc], ?_⟩, by omega⟩
  intro q hq
  rcases List.mem_append.mp hq with hq1 | hq2
  · obtain ⟨ha, hb, hc⟩ := hb1 q hq1
    refine ⟨ha, by omega, fun b hbb => ?_⟩
    obtain ⟨hc1, hc2⟩ := hc b hbb
    exact ⟨hc1, by omega⟩
  · obtain ⟨ha, hb, hc⟩ := hb2 q hq2
    refine ⟨by omega, hb, fun b hbb => ?_⟩
    obtain ⟨hc1, hc2⟩ := hc b hbb
    exact ⟨by omega, hc2⟩

/-- Deep copy extends the heap with fresh cells only, and every reference
stored in the copied value is fresh. -/
theorem copyExtends : ∀ f : Nat,
    (∀ h next v r, copyV f h next v = some r →
      freshExt h next r.2.1 r.2.2 ∧ ∀ b ∈ valAddrs r.1, next ≤ b ∧ b < r.2.2) ∧
    (∀ h next c r, copyC f h next c = some r →
      freshExt h next r.2.1 r.2.2 ∧ ∀ b ∈ cellAddrs r.1, next ≤ b ∧ b < r.2.2) ∧
    (∀ h next l r, copyL f h next l = some r →
      freshExt h next r.2.1 r.2.2 ∧ ∀ x ∈ r.1, ∀ b ∈ valAddrs x, next ≤ b ∧ b < r.2.2) ∧
    (∀ h next l r, copyE f h next l = some r →
      freshExt h next r.2.1 r.2.2 ∧ ∀ e ∈ r.1, ∀ b ∈ valAddrs e.2, next ≤ b ∧ b < r.2.2) := by
  intro f
  induction f with
  | zero =>
    refine ⟨?_, ?_, ?_, ?_⟩
    · intro h next v r hv
      cases v with
      | null =>
        cases Option.some.inj hv
        exact ⟨freshExt_refl h next, by simp [valAddrs]⟩
      | bool b =>
        cases Option.some.inj hv
        exact ⟨freshExt_refl h next, by simp [valAddrs]⟩
      | num q =>
        cases Option.some.inj hv
        exact ⟨freshExt_refl h next, by simp [valAddrs]⟩
      | str q =>
        cases Option.some.inj hv
        exact ⟨freshExt_refl h next, by simp [valAddrs]⟩
      | ref a => exact absurd hv (by simp [copyV])
    · intro h next c r hv
      exact absurd hv (by simp [copyC])
    · intro h next l r hv
      cases l with
      | nil =>
        cases Option.some.inj hv
        exact ⟨freshExt_refl h next, by simp⟩
      | cons x xs => exact absurd hv (by simp [copyL])
    · intro h next l r hv
      cases l with
      | nil =>
        cases Option.some.inj hv
        exact ⟨freshExt_refl h next, by simp⟩
      | cons e t => exact absurd hv (by simp [copyE])
  | succ f ih =>
    obtain ⟨ihV, ihC, ihL, ihE⟩ := ih
    refine ⟨?_, ?_, ?_, ?_⟩
    · intro h next v r hv
      cases v with
      | null =>
        cases Option.some.inj hv
        exact ⟨freshExt_refl h next, by simp [valAddrs]⟩
      | bool b =>
        cases Option.some.inj hv
        exact ⟨freshExt_refl h next, by simp [valAddrs]⟩
      | num q =>
        cases Option.some.inj hv
        exact ⟨freshExt_refl h next, by simp [valAddrs]⟩
      | str q =>
        cases Option.some.inj hv
        exact ⟨freshExt_refl h next, by simp [valAddrs]⟩
      | ref a =>
        simp only [copyV] at hv
        cases hl : lookupH h a with
        | none => rw [hl] at hv; exact absurd hv (by simp)
        | some c =>
          rw [hl] at hv
          dsimp only at hv
          cases hc : copyC f h next c with
          | none => rw [hc] at hv; exact absurd hv (by simp)
          | some p =>
            rw [hc] at hv
            cases Option.some.inj hv
            dsimp only
            obtain ⟨⟨tl1, heq1, hb1⟩, hn1⟩ := (ihC h next c p hc).1
            have hcb := (ihC h next c p hc).2
            refine ⟨⟨⟨tl1 ++ [(p.2.2, p.1)], by rw [heq1, List.append_assoc], ?_⟩, by omega⟩, ?_⟩
            · intro q hq
              rcases List.mem_append.mp hq with hq1 | hq2
              · obtain ⟨ha, hb, hcc⟩ := hb1 q hq1
                refine ⟨ha, by omega, fun b hbb => ?_⟩
                obtain ⟨h1, h2⟩ := hcc b hbb
                exact ⟨h1, by omega⟩
              · rw [List.mem_singleton] at hq2
                subst hq2
                refine ⟨hn1, by omega, fun b hbb => ?_⟩
                obtain ⟨h1, h2⟩ := hcb b hbb
                exact ⟨h1, by omega⟩
            · intro b hb
              rw [show valAddrs (PVal.ref p.2.2) = [p.2.2] from rfl, List.mem_singleton] at hb
              subst hb
              exact ⟨hn1, by omega⟩
    · intro h next c r hv
      cases c with
      | arr es =>
        simp only [copyC] at hv
        cases hcl : copyL f h next es with
        | none => rw [hcl] at hv; exact absurd hv (by simp)
        | some p =>
          rw [hcl] at hv
          cases Option.some.inj hv
          obtain ⟨hext, hb⟩ := ihL h next es p hcl
          refine ⟨hext, ?_⟩
          intro b hbb
          simp only [cellAddrs, List.mem_join, List.mem_map] at hbb
          obtain ⟨l, ⟨x, hx, rfl⟩, hbl⟩ := hbb
          exact hb x hx b hbl
      | obj es =>
        simp only [copyC] at hv
        cases hcl : copyE f h next es with
        | none => rw [hcl] at hv; exact absurd hv (by simp)
        | some p =>
          rw [hcl] at hv
          cases Option.some.inj hv
          obtain ⟨hext, hb⟩ := ihE h next es p hcl
          refine ⟨hext, ?_⟩
          intro b hbb
          simp only [cellAddrs, List.mem_join, List.mem_map] at hbb
          obtain ⟨l, ⟨x, hx, rfl⟩, hbl⟩ := hbb
          exact hb x hx b hbl
    · intro h next l r hv
      cases l with
      | nil =>
        cases Option.some.inj hv
        exact ⟨freshExt_refl h next, by simp⟩
      | cons x xs =>
        simp only [copyL] at hv
        cases hx : copyV f h next x with
        | none => rw [hx] at hv; exact absurd hv (by simp)
        | some p =>
          rw [hx] at hv
          dsimp only at hv
          cases hxs : copyL f p.2.1 p.2.2 xs with
          | none => rw [hxs] at hv; exact absurd hv (by simp)
          | some q =>
            rw [hxs] at hv
            cases Option.some.inj hv
            dsimp only
            obtain ⟨hext1, hb1⟩ := ihV h next x p hx
            obtain ⟨hext2, hb2⟩ := ihL p.2.1 p.2.2 xs q hxs
            refine ⟨freshExt_trans hext1 hext2, ?_⟩
            intro x' hx' b hb
            rcases List.mem_cons.mp hx' with hh | hh
            · subst hh
              obtain ⟨hh1, hh2⟩ := hb1 b hb
              have := hext2.2
              exact ⟨hh1, by omega⟩
            · obtain ⟨hh1, hh2⟩ := hb2 x' hh b hb
              have := hext1.2
              exact ⟨by omega, hh2⟩
    · intro h next l r hv
      cases l with
      | nil =>
        cases Option.some.inj hv
        exact ⟨freshExt_refl h next, by simp⟩
      | cons e t =>
        obtain ⟨k, v⟩ := e
        simp only [copyE] at hv
        cases hx : copyV f h next v with
        | none => rw [hx] at hv; exact absurd hv (by simp)
        | some p =>
          rw [hx] at hv
          dsimp only at hv
          cases hxs : copyE f p.2.1 p.2.2 t with
          | none => rw [hxs] at hv; exact absurd hv (by simp)
          | some q =>
            rw [hxs] at hv
            cases Option.some.inj hv
            dsimp only
            obtain ⟨hext1, hb1⟩ := ihV h next v p hx
            obtain ⟨hext2, hb2⟩ := ihE p.2.1 p.2.2 t q hxs
            refine ⟨freshExt_trans hext1 hext2, ?_⟩
            intro e' he' b hb
            rcases List.mem_cons.mp he' with hh | hh
            · subst hh
              obtain ⟨hh1, hh2⟩ := hb1 b hb
              have := hext2.2
              exact ⟨hh1, by omega⟩
            · obtain ⟨hh1, hh2⟩ := hb2 e' hh b hb
              have := hext1.2
              exact ⟨by omega, hh2⟩

theorem ext_agree {h : Heap} {next : Nat} {h2 : Heap} {n2 : Nat}
    (e : freshExt h next h2 n2) : ∀ a ∈ domH h, lookupH h2 a = lookupH h a := by
  obtain ⟨⟨tl, rfl, _⟩, _⟩ := e
  intro a ha
  exact lookupH_append_left h tl a ha

theorem boundedExt {h : Heap} {next : Nat} {h2 : Heap} {n2 : Nat}
    (hb : ∀ q ∈ h, q.1 < next) (e : freshExt h next h2 n2) :
    ∀ q ∈ h2, q.1 < n2 := by
  obtain ⟨⟨tl, rfl, htl⟩, hn⟩ := e
  intro q hq
  rcases List.mem_append.mp hq with h1 | h2
  · have := hb q h1
    omega
  · exact (htl q h2).2.1

theorem not_mem_dom_of_bound {h : Heap} {n : Nat} (hb : ∀ q ∈ h, q.1 < n) :
    n ∉ domH h := by
  intro hmem
  obtain ⟨q, hq, hq1⟩ := List.mem_map.mp hmem
  have := hb q hq
  omega

/-- The copy views exactly as the original did. -/
theorem copyView : ∀ f : Nat,
    (∀ h next v r j, (∀ q ∈ h, q.1 < next) → copyV f h next v = some r →
      viewV f h v = some j → viewV f r.2.1 r.1 = some j) ∧
    (∀ h next c r j, (∀ q ∈ h, q.1 < next) → copyC f h next c = some r →
      viewC f h c = some j → viewC f r.2.1 r.1 = some j) ∧
    (∀ h next l r js, (∀ q ∈ h, q.1 < next) → copyL f h next l = some r →
      viewL f h l = some js → viewL f r.2.1 r.1 = some js) ∧
    (∀ h next l r js, (∀ q ∈ h, q.1 < next) → copyE f h next l = some r →
      viewE f h l = some js → viewE f r.2.1 r.1 = some js) := by
  intro f
  induction f with
  | zero =>
    refine ⟨?_, ?_, ?_, ?_⟩
    · intro h next v r j hb hcp hj
      cases v with
      | null => cases Option.some.inj hcp; exact hj
      | bool b => cases Option.some.inj hcp; exact hj
      | num q => cases Option.some.inj hcp; exact hj
      | str q => cases Option.some.inj hcp; exact hj
      | ref a => exact absurd hcp (by simp [copyV])
    · intro h next c r j hb hcp hj
      exact absurd hcp (by simp [copyC])
    · intro h next l r js hb hcp hj
      cases l with
      | nil => cases Option.some.inj hcp; exact hj
      | cons x xs => exact absurd hcp (by simp [copyL])
    · intro h next l r js hb hcp hj
      cases l with
      | nil => cases Option.some.inj hcp; exact hj
      | cons e t => exact absurd hcp (by simp [copyE])
  | succ f ih =>
    obtain ⟨ihV, ihC, ihL, ihE⟩ := ih
    refine ⟨?_, ?_, ?_, ?_⟩
    · intro h next v r j hb hcp hj
      cases v with
      | null => cases Option.some.inj hcp; exact hj
      | bool b => cases Option.some.inj hcp; exact hj
      | num q => cases Option.some.inj hcp; exact hj
      | str q => cases Option.some.inj hcp; exact hj
      | ref a =>
        simp only [copyV] at hcp
        cases hl : lookupH h a with
        | none =>
          have hnone : viewV (f + 1) h (.ref a) = none := by simp [viewV, hl]
          rw [hnone] at hj
          exact absurd hj (by simp)
        | some c =>
          have hjc : viewC f h c = some j := by
            have hstep : viewV (f + 1) h (.ref a) = viewC f h c := by simp [viewV, hl]
            rw [hstep] at hj
            exact hj
          rw [hl] at hcp
          dsimp only at hcp
          cases hc : copyC f h next c with
          | none => rw [hc] at hcp; exact absurd hcp (by simp)
          | some p =>
            rw [hc] at hcp
            cases Option.some.inj hcp
            dsimp only
            have hext := ((copyExtends f).2.1 h next c p hc).1
            have hb2 : ∀ q ∈ p.2.1, q.1 < p.2.2 := boundedExt hb hext
            have hnd : p.2.2 ∉ domH p.2.1 := not_mem_dom_of_bound hb2
            have hlk : lookupH (p.2.1 ++ [(p.2.2, p.1)]) p.2.2 = some p.1 := by
              rw [lookupH_append, lookupH_none_of_not_dom p.2.1 p.2.2 hnd]
              simp [lookupH_cons]
            have hv2 : viewC f p.2.1 p.1 = some j := ihC h next c p j hb hc hjc
            have hag : ∀ a ∈ domH p.2.1,
                lookupH (p.2.1 ++ [(p.2.2, p.1)]) a = lookupH p.2.1 a :=
              fun a ha => lookupH_append_left p.2.1 _ a ha
            have hv3 : viewC f (p.2.1 ++ [(p.2.2, p.1)]) p.1 = some j :=
              ((viewAgree p.2.1 _ hag f).2.1) p.1 j hv2
            show viewV (f + 1) (p.2.1 ++ [(p.2.2, p.1)]) (.ref p.2.2) = some j
            simp [viewV, hlk, hv3]
    · intro h next c r j hb hcp hj
      cases c with
      | arr es =>
        simp only [copyC] at hcp
        have hstep : viewC (f + 1) h (.arr es) = (viewL f h es).map JVal.arr := by
          simp [viewC]
        rw [hstep] at hj
        cases hcl : copyL f h next es with
        | none => rw [hcl] at hcp; exact absurd hcp (by simp)
        | some p =>
          rw [hcl] at hcp
          cases Option.some.inj hcp
          cases hvl : viewL f h es with
          | none => rw [hvl] at hj; exact absurd hj (by simp)
          | some js =>
            rw [hvl] at hj
            have h2 : viewL f p.2.1 p.1 = some js := ihL h next es p js hb hcl hvl
            show viewC (f + 1) p.2.1 (.arr p.1) = some j
            rw [show viewC (f + 1) p.2.1 (.arr p.1) = (viewL f p.2.1 p.1).map JVal.arr from
              by simp [viewC], h2]
            exact hj
      | obj es =>
        simp only [copyC] at hcp
        have hstep : viewC (f + 1) h (.obj es) = (viewE f h es).map JVal.obj := by
          simp [viewC]
        rw [hstep] at hj
        cases hcl : copyE f h next es with
        | none => rw [hcl] at hcp; exact absurd hcp (by simp)
        | some p =>
          rw [hcl] at hcp
          cases Option.some.inj hcp
          cases hvl : viewE f h es with
          | none => rw [hvl] at hj; exact absurd hj (by simp)
          | some js =>
            rw [hvl] at hj
            have h2 : viewE f p.2.1 p.1 = some js := ihE h next es p js hb hcl hvl
            show viewC (f + 1) p.2.1 (.obj p.1) = some j
            rw [show viewC (f + 1) p.2.1 (.obj p.1) = (viewE f p.2.1 p.1).map JVal.obj from
              by simp [viewC], h2]
            exact hj
    · intro h next l r js hb hcp hj
      cases l with
      | nil => cases Option.some.inj hcp; exact hj
      | cons x xs =>
        simp only [copyL] at hcp
        simp only [viewL] at hj ⊢
        cases hx : copyV f h next x with
        | none => rw [hx] at hcp; exact absurd hcp (by simp)
        | some p =>
          rw [hx] at hcp
          dsimp only at hcp
          cases hxs : copyL f p.2.1 p.2.2 xs with
          | none => rw [hxs] at hcp; exact absurd hcp (by simp)
          | some q =>
            rw [hxs] at hcp
            cases Option.some.inj hcp
            dsimp only
            simp only [viewL]
            cases hvx : viewV f h x with
            | none => rw [hvx] at hj; exact absurd hj (by simp)
            | some jx =>
              cases hvxs : viewL f h xs with
              | none => rw [hvx, hvxs] at hj; exact absurd hj (by simp)
              | some jxs =>
                rw [hvx, hvxs] at hj
                have ext1 := ((copyExtends f).1 h next x p hx).1
                have ext2 := ((copyExtends f).2.2.1 p.2.1 p.2.2 xs q hxs).1
                have hb2 : ∀ q' ∈ p.2.1, q'.1 < p.2.2 := boundedExt hb ext1
                have hvx2 : viewV f p.2.1 p.1 = some jx := ihV h next x p jx hb hx hvx
                have hvx3 : viewV f q.2.1 p.1 = some jx :=
                  (viewAgree p.2.1 q.2.1 (ext_agree ext2) f).1 p.1 jx hvx2
                have hvxs2 : viewL f p.2.1 xs = some jxs :=
                  (viewAgree h p.2.1 (ext_agree ext1) f).2.2.1 xs jxs hvxs
                have hql : viewL f q.2.1 q.1 = some jxs :=
                  ihL p.2.1 p.2.2 xs q jxs hb2 hxs hvxs2
                rw [hvx3, hql]
                exact hj
    · intro h next l r js hb hcp hj
      cases l with
      | nil => cases Option.some.inj hcp; exact hj
      | cons e t =>
        obtain ⟨k, v⟩ := e
        simp only [copyE] at hcp
        simp only [viewE] at hj ⊢
        cases hx : copyV f h next v with
        | none => rw [hx] at hcp; exact absurd hcp (by simp)
        | some p =>
          rw [hx] at hcp
          dsimp only at hcp
          cases hxs : copyE f p.2.1 p.2.2 t with
          | none => rw [hxs] at hcp; exact absurd hcp (by simp)
          | some q =>
            rw [hxs] at hcp
            cases Option.some.inj hcp
            dsimp only
            simp only [viewE]
            cases hvx : viewV f h v with
            | none => rw [hvx] at hj; exact absurd hj (by simp)
            | some jx =>
              cases hvxs : viewE f h t with
              | none => rw [hvx, hvxs] at hj; exact absurd hj (by simp)
              | some jxs =>
                rw [hvx, hvxs] at hj
                have ext1 := ((copyExtends f).1 h next v p hx).1
                have ext2 := ((copyExtends f).2.2.2 p.2.1 p.2.2 t q hxs).1
                have hb2 : ∀ q' ∈ p.2.1, q'.1 < p.2.2 := boundedExt hb ext1
                have hvx2 : viewV f p.2.1 p.1 = some jx := ihV h next v p jx hb hx hvx
                have hvx3 : viewV f q.2.1 p.1 = some jx :=
                  (viewAgree p.2.1 q.2.1 (ext_agree ext2) f).1 p.1 jx hvx2
                have hvxs2 : viewE f p.2.1 t = some jxs :=
                  (viewAgree h p.2.1 (ext_agree ext1) f).2.2.2 t jxs hvxs
                have hql : viewE f q.2.1 q.1 = some jxs :=
                  ihE p.2.1 p.2.2 t q jxs hb2 hxs hvxs2
                rw [hvx3, hql]
                exact hj

/-- In a heap whose cells at addresses `≥ next` only mention addresses
`≥ next`, everything reachable from a value whose own references are
`≥ next` stays `≥ next`. -/
theorem reachBound (h2 : Heap) (next : Nat)
    (hinv : ∀ q ∈ h2, next ≤ q.1 → ∀ b ∈ cellAddrs q.2, next ≤ b) :
    ∀ fu : Nat,
      (∀ v, (∀ b ∈ valAddrs v, next ≤ b) → ∀ b ∈ reachV fu h2 v, next ≤ b) ∧
      (∀ c, (∀ b ∈ cellAddrs c, next ≤ b) → ∀ b ∈ reachC fu h2 c, next ≤ b) ∧
      (∀ l, (∀ x ∈ l, ∀ b ∈ valAddrs x, next ≤ b) → ∀ b ∈ reachL fu h2 l, next ≤ b) ∧
      (∀ es, (∀ e ∈ es, ∀ b ∈ valAddrs e.2, next ≤ b) → ∀ b ∈ reachE fu h2 es, next ≤ b) := by
  intro fu
  induction fu with
  | zero =>
    refine ⟨?_, ?_, ?_, ?_⟩
    · intro v hv b hb
      cases v with
      | null => simp [reachV] at hb
      | bool x => simp [reachV] at hb
      | num x => simp [reachV] at hb
      | str x => simp [reachV] at hb
      | ref a =>
        simp only [reachV, List.mem_singleton] at hb
        subst hb
        exact hv b (by simp [valAddrs])
    · intro c hc b hb
      simp [reachC] at hb
    · intro l hl b hb
      cases l with
      | nil => simp [reachL] at hb
      | cons x xs => simp [reachL] at hb
    · intro es he b hb
      cases es with
      | nil => simp [reachE] at hb
      | cons e t => simp [reachE] at hb
  | succ fu ih =>
    obtain ⟨ihV, ihC, ihL, ihE⟩ := ih
    refine ⟨?_, ?_, ?_, ?_⟩
    · intro v hv b hb
      cases v with
      | null => simp [reachV] at hb
      | bool x => simp [reachV] at hb
      | num x => simp [reachV] at hb
      | str x => simp [reachV] at hb
      | ref a =>
        simp only [reachV] at hb
        rcases List.mem_cons.mp hb with hba | hb2
        · subst hba
          exact hv b (by simp [valAddrs])
        · cases hl : lookupH h2 a with
          | none => rw [hl] at hb2; simp at hb2
          | some c =>
            rw [hl] at hb2
            have ha : next ≤ a := hv a (by simp [valAddrs])
            have hmem : (a, c) ∈ h2 := lookupH_mem_pair h2 a c hl
            have hcb : ∀ b' ∈ cellAddrs c, next ≤ b' := hinv (a, c) hmem ha
            exact ihC c hcb b hb2
    · intro c hc b hb
      cases c with
      | arr es =>
        simp only [reachC] at hb
        refine ihL es ?_ b hb
        intro x hx b' hb'
        refine hc b' ?_
        simp only [cellAddrs, List.mem_join, List.mem_map]
        exact ⟨valAddrs x, ⟨x, hx, rfl⟩, hb'⟩
      | obj es =>
        simp only [reachC] at hb
        refine ihE es ?_ b hb
        intro e he b' hb'
        refine hc b' ?_
        simp only [cellAddrs, List.mem_join, List.mem_map]
        exact ⟨valAddrs e.2, ⟨e, he, rfl⟩, hb'⟩
    · intro l hl b hb
      cases l with
      | nil => simp [reachL] at hb
      | cons x xs =>
        simp only [reachL] at hb
        rcases List.mem_append.mp hb with h1 | h1
        · exact ihV x (hl x (List.mem_cons_self x xs)) b h1
        · exact ihL xs (fun x' hx' => hl x' (List.mem_cons_of_mem _ hx')) b h1
    · intro es he b hb
      cases es with
      | nil => simp [reachE] at hb
      | cons e t =>
        obtain ⟨k, v⟩ := e
        simp only [reachE] at hb
        rcases List.mem_append.mp hb with h1 | h1
        · exact ihV v (he (k, v) (List.mem_cons_self _ t)) b h1
        · exact ihE t (fun e' he' => he e' (List.mem_cons_of_mem _ he')) b h1

theorem gen_id_rules (pfx : String) (s : SimState) : (gen_id pfx s).2.rules = s.rules := rfl

theorem gen_id_index (pfx : String) (s : SimState) :
    (gen_id pfx s).2.unique_index = s.unique_index := rfl

/-- A resolution never mutates the Rule Store. -/
theorem process_rules_preserved (st : String) (p : JVal) (s : SimState) :
    (process_incoming_by_stage_exact st p s).2.rules = s.rules := by
  unfold process_incoming_by_stage_exact
  dsimp only
  split
  · simp [log_event_rules, gen_id_rules]
  · split
    · simp [log_event_rules, gen_id_rules]
    · split
      · split
        · simp [log_event_rules, gen_id_rules]
        · split
          · simp [log_event_rules, gen_id_rules]
          · simp [log_event_rules, gen_id_rules]
      · simp [log_event_rules, gen_id_rules]

/-- A resolution never mutates the unique index. -/
theorem process_index_preserved (st : String) (p : JVal) (s : SimState) :
    (process_incoming_by_stage_exact st p s).2.unique_index = s.unique_index := by
  unfold process_incoming_by_stage_exact
  dsimp only
  split
  · simp [log_event_index, gen_id_index]
  · split
    · simp [log_event_index, gen_id_index]
    · split
      · split
        · simp [log_event_index, gen_id_index]
        · split
          · simp [log_event_index, gen_id_index]
          · simp [log_event_index, gen_id_index]
      · simp [log_event_index, gen_id_index]

/-- The response value of a resolution depends on the state only through
the Rule Store and the unique index. -/
theorem process_fst_congr (st : String) (p : JVal) (s1 s2 : SimState)
    (hr : s1.rules = s2.rules) (hi : s1.unique_index = s2.unique_index) :
    (process_incoming_by_stage_exact st p s1).1
      = (process_incoming_by_stage_exact st p s2).1 := by
  unfold process_incoming_by_stage_exact
  dsimp only
  by_cases h1 : ((dget UNIQUE_FIELDS_PER_STAGE st).getD []).isEmpty = true
  · rw [if_pos h1, if_pos h1]
  · rw [if_neg h1, if_neg h1]
    cases hb : build_unique_composite_exact p ((dget UNIQUE_FIELDS_PER_STAGE st).getD []) with
    | none => rfl
    | some comp =>
      dsimp only
      rw [hi]
      cases hrid : dget ((dget s2.unique_index st).getD []) comp with
      | none => rfl
      | some rid =>
        by_cases hne : rid = ""
        · simp [hne]
        · simp only [hne, ne_eq, not_false_eq_true, decide_not, Option.getD_some,
            log_event_rules, gen_id_rules, hr]
          cases hrr : dget s2.rules rid with
          | none => simp [hrr]
          | some rule => cases hm : matched_result st rule <;> simp [hrr, hm]

/-- C7: no aliasing of matched results. State level: a resolution leaves
the Rule Store and the unique index unchanged, and re-resolving the same
stage and payload immediately afterwards returns the same response, so the
stored rule outcome observed by a subsequent resolution is unaffected.
Heap level (the matched path builds its `result` by
`deepcopy(rule["outcome"])`): over a heap `h` whose live cells sit below
the allocation bound `next`, a deep copy of a value `v` viewing as
document `j` returns a copy `r.1` in heap `r.2.1` that (i) views as the
same document `j`, (ii) left every original cell untouched, (iii) reaches
only fresh addresses `≥ next`, and (iv) mutating the cell at any fresh
address — in particular any part of the returned copy — leaves the view of
the original value `v` unchanged at `j`. -/
theorem c7_matched_result_deepcopy_isolated :
    (∀ (st : String) (p : JVal) (s : SimState),
      (process_incoming_by_stage_exact st p s).2.rules = s.rules ∧
      (process_incoming_by_stage_exact st p s).2.unique_index = s.unique_index ∧
      (process_incoming_by_stage_exact st p
          ((process_incoming_by_stage_exact st p s).2)).1
        = (process_incoming_by_stage_exact st p s).1) ∧
    (∀ (f : Nat) (h : Heap) (next : Nat) (v : PVal) (r : PVal × Heap × Nat) (j : JVal),
      (∀ q ∈ h, q.1 < next) →
      copyV f h next v = some r →
      viewV f h v = some j →
      viewV f r.2.1 r.1 = some j ∧
      (∀ a ∈ domH h, lookupH r.2.1 a = lookupH h a) ∧
      (∀ fu b, b ∈ reachV fu r.2.1 r.1 → next ≤ b) ∧
      (∀ b c, next ≤ b → viewV f (setH r.2.1 b c) v = some j)) := by
  constructor
  · intro st p s
    refine ⟨process_rules_preserved st p s, process_index_preserved st p s, ?_⟩
    exact process_fst_congr st p _ s (process_rules_preserved st p s)
      (process_index_preserved st p s)
  · intro f h next v r j hb hcp hj
    have hext := ((copyExtends f).1 h next v r hcp).1
    have hvb := ((copyExtends f).1 h next v r hcp).2
    refine ⟨(copyView f).1 h next v r j hb hcp hj, ext_agree hext, ?_, ?_⟩
    · have hinv : ∀ q ∈ r.2.1, next ≤ q.1 → ∀ b ∈ cellAddrs q.2, next ≤ b := by
        obtain ⟨⟨tl, heq, htl⟩, hn⟩ := hext
        rw [heq]
        intro q hq hge b hbb
        rcases List.mem_append.mp hq with h1 | h2
        · have := hb q h1
          omega
        · exact ((htl q h2).2.2 b hbb).1
      exact fun fu b hbb =>
        (reachBound r.2.1 next hinv fu).1 r.1 (fun b' hb' => (hvb b' hb').1) b hbb
    · intro b c hbge
      have hag : ∀ a ∈ domH h, lookupH (setH r.2.1 b c) a = lookupH h a := by
        intro a ha
        have halt : a < next := by
          obtain ⟨q, hq, hq1⟩ := List.mem_map.mp ha
          have := hb q hq
          omega
        rw [lookupH_setH_ne r.2.1 a b c (by omega), ext_agree hext a ha]
      exact (viewAgree h (setH r.2.1 b c) hag f).1 v j hj

/-- C7 witness: resolving on the empty store leaves the Rule Store as is,
and after deep-copying the one-cell heap value and overwriting the copy's
cell, the original value still views as its old document. -/
theorem c7_witness :
    (process_incoming_by_stage_exact "eligibility" (.obj []) initState).2.rules
        = initState.rules ∧
    viewV 3 (setH [(0, PCell.obj [("k", PVal.str "x")]), (1, PCell.obj [("k", PVal.str "x")])]
        1 (PCell.obj [("k", PVal.str "MUTATED")])) (PVal.ref 0)
      = some (JVal.obj [("k", JVal.str "x")]) :=
  ⟨(c7_matched_result_deepcopy_isolated.1 "eligibility" (.obj []) initState).1,
   (c7_matched_result_deepcopy_isolated.2 3 [(0, PCell.obj [("k", PVal.str "x")])] 1
      (PVal.ref 0)
      (PVal.ref 1, [(0, PCell.obj [("k", PVal.str "x")]), (1, PCell.obj [("k", PVal.str "x")])], 2)
      (JVal.obj [("k", JVal.str "x")]) (by decide) (by decide) (by decide)).2.2.2
      1 (PCell.obj [("k", PVal.str "MUTATED")]) (by decide)⟩
